import Mathlib

/-!
# zitadel: organization event catalog, unique constraints, IAM read model

A shallow embedding of

* `internal/repository/org/org.go` (the organization lifecycle events, their
  unique-constraint declarations and their mappers),
* `internal/eventstore/event.go` (`isEventTypes`),
* `internal/v2/repository/iam/read_model.go` (the IAM read model),

together with the declarations of other packages these files use.

Conventions of the embedding:

* a Go `string` and a Go `[]byte` are lists of bytes (`GoString`, `List UInt8`);
  a Go string need not be valid UTF-8, and the embedding keeps that;
* a Go slice is a `List`, the `nil` slice is `[]`;
* a Go pointer to a struct is the struct (pointers handed to the functions
  below are taken to be non-nil, a nil one makes the Go code panic);
* a Go `(value, error)` result is a pair of `Option`s, `none` being `nil`;
* wall-clock fields (creation dates) are left out;
* the standard-library functions the mappers and the persistence layer call
  (`unicode/utf8`, `unicode/utf16`, `encoding/json`) are embedded as far as
  the structs of the catalog need them: one string field tagged
  `json:"name,omitempty"`.

The file has two parts: the definitions, then the theorems.
-/

namespace Zitadel

/-- A Go `string`: a sequence of bytes, by convention but not necessarily UTF-8. -/
abbrev GoString := List UInt8

/-- The bytes of a string literal of the Go source (Go source text is UTF-8). -/
def lit (s : String) : GoString := s.toList.flatMap String.utf8EncodeChar

/-! ## Package `unicode/utf8`

The mappers call `json.Unmarshal`, and the stored bytes they read were written
by `json.Marshal`. Both belong to the Go standard library, whose sources are
not part of the repository; this section and the next embed the functions of
`unicode/utf8`, `unicode/utf16` and `encoding/json` that are reached for a
struct with one string field, following their documented behaviour. Runes are
natural numbers; masks, shifts and bitwise "or" of disjoint bit ranges are
written with `%`, `/`, `*` and `+`.
-/

namespace utf8

def RuneError : Nat := 0xFFFD

/-- The table `first` of package `unicode/utf8`: information about the first
byte of an encoding. `0xF0` marks ASCII, `0xF1` an invalid first byte; otherwise
the low three bits are the length of the encoding and the high four bits index
`acceptRanges`. -/
def first (p0 : Nat) : Nat :=
  if p0 < 0x80 then 0xF0
  else if p0 < 0xC2 then 0xF1
  else if p0 < 0xE0 then 0x02
  else if p0 = 0xE0 then 0x13
  else if p0 < 0xED then 0x03
  else if p0 = 0xED then 0x23
  else if p0 < 0xF0 then 0x03
  else if p0 = 0xF0 then 0x34
  else if p0 < 0xF4 then 0x04
  else if p0 = 0xF4 then 0x44
  else 0xF1

/-- The table `acceptRanges`: the range the second byte must lie in. -/
def acceptRanges (i : Nat) : Nat × Nat :=
  match i with
  | 0 => (0x80, 0xBF)
  | 1 => (0xA0, 0xBF)
  | 2 => (0x80, 0x9F)
  | 3 => (0x90, 0xBF)
  | 4 => (0x80, 0x8F)
  | _ => (0, 0)

/-- The part of `utf8.DecodeRune` after the first byte `p0` has been classified
as the start of an encoding of `sz` bytes whose second byte must lie in
`lo..hi`. Masks and shifts are written with `%` and `*`. -/
def decodeTail (p0 sz lo hi : Nat) (rest : List UInt8) : Nat × Nat :=
  if rest.length + 1 < sz then (RuneError, 1)
  else
    match rest with
    | [] => (RuneError, 1)
    | b1 :: rest1 =>
      if b1.toNat < lo ∨ hi < b1.toNat then (RuneError, 1)
      else if sz ≤ 2 then (p0 % 32 * 64 + b1.toNat % 64, 2)
      else
        match rest1 with
        | [] => (RuneError, 1)
        | b2 :: rest2 =>
          if b2.toNat < 0x80 ∨ 0xBF < b2.toNat then (RuneError, 1)
          else if sz ≤ 3 then (p0 % 16 * 4096 + b1.toNat % 64 * 64 + b2.toNat % 64, 3)
          else
            match rest2 with
            | [] => (RuneError, 1)
            | b3 :: _ =>
              if b3.toNat < 0x80 ∨ 0xBF < b3.toNat then (RuneError, 1)
              else
                (p0 % 8 * 262144 + b1.toNat % 64 * 4096 + b2.toNat % 64 * 64
                  + b3.toNat % 64, 4)

/-- `utf8.DecodeRune`: the first rune of `p` and the number of bytes it takes;
`(RuneError, 1)` for an invalid encoding, `(RuneError, 0)` for empty input. -/
def DecodeRune (p : List UInt8) : Nat × Nat :=
  match p with
  | [] => (RuneError, 0)
  | p0 :: rest =>
    let x := first p0.toNat
    if x ≥ 0xF0 then
      (if x = 0xF0 then p0.toNat else RuneError, 1)
    else
      decodeTail p0.toNat (x % 8) (acceptRanges (x / 16)).1 (acceptRanges (x / 16)).2 rest

/-- `utf8.AppendRune` to an empty slice: the UTF-8 encoding of a rune; a
surrogate or a value past `MaxRune` is encoded as `RuneError`. -/
def EncodeRune (r : Nat) : List UInt8 :=
  if r < 0x80 then [UInt8.ofNat r]
  else if r ≤ 0x7FF then [UInt8.ofNat (0xC0 + r / 64), UInt8.ofNat (0x80 + r % 64)]
  else if r > 0x10FFFF ∨ (0xD800 ≤ r ∧ r ≤ 0xDFFF) then [0xEF, 0xBF, 0xBD]
  else if r ≤ 0xFFFF then
    [UInt8.ofNat (0xE0 + r / 4096), UInt8.ofNat (0x80 + r / 64 % 64), UInt8.ofNat (0x80 + r % 64)]
  else
    [UInt8.ofNat (0xF0 + r / 262144), UInt8.ofNat (0x80 + r / 4096 % 64),
      UInt8.ofNat (0x80 + r / 64 % 64), UInt8.ofNat (0x80 + r % 64)]

/-- The loop of `utf8.Valid`, with the length of the input as fuel. -/
def validAux : Nat → List UInt8 → Bool
  | _, [] => true
  | 0, _ :: _ => false
  | fuel + 1, p0 :: rest =>
    let d := DecodeRune (p0 :: rest)
    if d.1 = RuneError ∧ d.2 = 1 then false
    else validAux fuel (rest.drop (d.2 - 1))

/-- `utf8.Valid`: whether the bytes are entirely valid UTF-8-encoded runes. -/
def Valid (p : List UInt8) : Bool := validAux p.length p

/-- The valid encodings: `IsEncoding p0 rest r size` says that `p0 :: rest`
starts with the `size`-byte encoding of the rune `r`. -/
def IsEncoding (p0 : UInt8) (rest : List UInt8) (r size : Nat) : Prop :=
  (size = 1 ∧ p0.toNat < 0x80 ∧ r = p0.toNat) ∨
  (size = 2 ∧ ∃ b1 t, rest = b1 :: t ∧ 0xC2 ≤ p0.toNat ∧ p0.toNat < 0xE0 ∧
    0x80 ≤ b1.toNat ∧ b1.toNat ≤ 0xBF ∧ r = p0.toNat % 32 * 64 + b1.toNat % 64) ∨
  (size = 3 ∧ ∃ b1 b2 t, rest = b1 :: b2 :: t ∧ 0xE0 ≤ p0.toNat ∧ p0.toNat < 0xF0 ∧
    (p0.toNat = 0xE0 → 0xA0 ≤ b1.toNat) ∧ (p0.toNat = 0xED → b1.toNat ≤ 0x9F) ∧
    0x80 ≤ b1.toNat ∧ b1.toNat ≤ 0xBF ∧ 0x80 ≤ b2.toNat ∧ b2.toNat ≤ 0xBF ∧
    r = p0.toNat % 16 * 4096 + b1.toNat % 64 * 64 + b2.toNat % 64) ∨
  (size = 4 ∧ ∃ b1 b2 b3 t, rest = b1 :: b2 :: b3 :: t ∧ 0xF0 ≤ p0.toNat ∧ p0.toNat < 0xF5 ∧
    (p0.toNat = 0xF0 → 0x90 ≤ b1.toNat) ∧ (p0.toNat = 0xF4 → b1.toNat ≤ 0x8F) ∧
    0x80 ≤ b1.toNat ∧ b1.toNat ≤ 0xBF ∧ 0x80 ≤ b2.toNat ∧ b2.toNat ≤ 0xBF ∧
    0x80 ≤ b3.toNat ∧ b3.toNat ≤ 0xBF ∧
    r = p0.toNat % 8 * 262144 + b1.toNat % 64 * 4096 + b2.toNat % 64 * 64 + b3.toNat % 64)


end utf8

/-! ## Packages `unicode/utf16` and `encoding/json` -/

namespace utf16

/-- `utf16.IsSurrogate`. -/
def IsSurrogate (r : Nat) : Bool := 0xD800 ≤ r ∧ r < 0xE000

/-- `utf16.DecodeRune`: the rune of a surrogate pair, `U+FFFD` if the pair is
not a valid one. -/
def DecodeRune (r1 r2 : Nat) : Nat :=
  if 0xD800 ≤ r1 ∧ r1 < 0xDC00 ∧ 0xDC00 ≤ r2 ∧ r2 < 0xE000 then
    (r1 - 0xD800) * 1024 + (r2 - 0xDC00) + 0x10000
  else 0xFFFD

end utf16

namespace json

/-! ### Encoding -/

/-- The constant `hex = "0123456789abcdef"`, indexed. -/
def hex (n : Nat) : UInt8 :=
  if n < 10 then UInt8.ofNat (0x30 + n) else UInt8.ofNat (0x61 + (n - 10))

/-- The table `htmlSafeSet`: the ASCII bytes that need no escaping in a JSON
string embedded in HTML: all from the space on but the double quote, `&`, `<`,
`>` and the backslash. -/
def htmlSafeSet (b : Nat) : Bool :=
  0x20 ≤ b ∧ b < 0x80 ∧ b ≠ 0x22 ∧ b ≠ 0x26 ∧ b ≠ 0x3C ∧ b ≠ 0x3E ∧ b ≠ 0x5C

/-- The escape `appendString` writes for an ASCII byte that is not in
`htmlSafeSet`: a short escape for the backslash, the double quote, line feed,
carriage return and tab, and the six-byte form `\u00XX` for the rest. (Go
releases from 1.22 on also write the short escapes `\b` and `\f` for the bytes
`0x08` and `0x0C`; `unquoteStep` below reads both forms as the same byte.) -/
def escapeByte (b : UInt8) : List UInt8 :=
  if b = 0x5C ∨ b = 0x22 then [0x5C, b]
  else if b = 0x0A then [0x5C, 0x6E]
  else if b = 0x0D then [0x5C, 0x72]
  else if b = 0x09 then [0x5C, 0x74]
  else [0x5C, 0x75, 0x30, 0x30, hex (b.toNat / 16), hex (b.toNat % 16)]

/-- One round of the loop of `appendString` (with `escapeHTML` set, as `Marshal`
does), at the byte `b` followed by `rest`: what is written for the rune found
there; `k` writes what is left after the round. -/
def appendStringStep (k : List UInt8 → List UInt8) (b : UInt8) (rest : List UInt8) :
    List UInt8 :=
  if b.toNat < 0x80 then
    (if htmlSafeSet b.toNat then [b] else escapeByte b) ++ k rest
  else
    let d := utf8.DecodeRune (b :: rest)
    if d.1 = utf8.RuneError ∧ d.2 = 1 then
      [0x5C, 0x75, 0x66, 0x66, 0x66, 0x64] ++ k rest
    else if d.1 = 0x2028 ∨ d.1 = 0x2029 then
      [0x5C, 0x75, 0x32, 0x30, 0x32, hex (d.1 % 16)] ++ k (rest.drop (d.2 - 1))
    else
      (b :: rest).take d.2 ++ k (rest.drop (d.2 - 1))

/-- The loop of `appendString`: what is written between the two quotes for the
string `src`. The first argument is fuel, the length of `src` is enough. -/
def appendStringBody : Nat → List UInt8 → List UInt8
  | _, [] => []
  | 0, _ :: _ => []
  | fuel + 1, b :: rest => appendStringStep (appendStringBody fuel) b rest

/-- `appendString`: the JSON string literal for `src`. -/
def appendString (src : List UInt8) : List UInt8 :=
  [0x22] ++ appendStringBody src.length src ++ [0x22]

/-- `json.Marshal` of a struct whose only field visible to the encoder is
`Name string` tagged `json:"name,omitempty"`: the field is left out when the
string is empty. -/
def marshalName (name : GoString) : List UInt8 :=
  if name = [] then [0x7B, 0x7D]
  else [0x7B] ++ appendString (lit "name") ++ [0x3A] ++ appendString name ++ [0x7D]

/-! ### Decoding

`Unmarshal` first checks that the whole input is one well-formed JSON value
(`checkValid`) and then walks it, storing what it finds into the struct. The
embedding does both in one pass by recursive descent: `scanTop` is `none`
exactly on ill-formed input, and otherwise gives what the walk needs, the kind
of the value and, for an object, its members in order of appearance. The
recursion is on fuel; of any three consecutive levels of the recursion at
least one consumes a byte of the input, so three times the length of the
input is always enough fuel.
-/

/-- The errors of `Unmarshal` that can occur here: ill-formed input, and a JSON
value of a kind that the Go value it is stored into cannot hold. -/
inductive Error
  | SyntaxError
  | UnmarshalTypeError (Value : GoString)
deriving DecidableEq, Repr

/-- The kind of a JSON value; a string comes with the bytes between its quotes. -/
inductive Tok
  | null
  | bool
  | number
  | string (body : List UInt8)
  | array
  | object
deriving DecidableEq, Repr

/-- The constant `maxNestingDepth` of the scanner. -/
def maxNestingDepth : Nat := 10000

/-- The function `isSpace` of the scanner: space, tab, carriage return, line feed. -/
def isSpace (c : UInt8) : Bool := c = 0x20 ∨ c = 0x09 ∨ c = 0x0D ∨ c = 0x0A

def skipSpace : List UInt8 → List UInt8
  | [] => []
  | c :: s => if isSpace c then skipSpace s else c :: s

def isDigit (c : UInt8) : Bool := 0x30 ≤ c.toNat ∧ c.toNat ≤ 0x39

def isHex (c : UInt8) : Bool :=
  isDigit c ∨ (0x61 ≤ c.toNat ∧ c.toNat ≤ 0x66) ∨ (0x41 ≤ c.toNat ∧ c.toNat ≤ 0x46)

/-- The scanner inside a string literal, after the opening quote: the bytes up
to the closing quote and the input after it. -/
def scanString : List UInt8 → Option (List UInt8 × List UInt8)
  | [] => none
  | c :: s =>
    if c = 0x22 then some ([], s)
    else if c = 0x5C then
      match s with
      | [] => none
      | e :: s1 =>
        if e = 0x75 then
          match s1 with
          | h1 :: h2 :: h3 :: h4 :: s2 =>
            if isHex h1 ∧ isHex h2 ∧ isHex h3 ∧ isHex h4 then
              (scanString s2).map fun r => (c :: e :: h1 :: h2 :: h3 :: h4 :: r.1, r.2)
            else none
          | _ => none
        else if e = 0x62 ∨ e = 0x66 ∨ e = 0x6E ∨ e = 0x72 ∨ e = 0x74 ∨ e = 0x5C ∨ e = 0x2F
            ∨ e = 0x22 then
          (scanString s1).map fun r => (c :: e :: r.1, r.2)
        else none
    else if c.toNat < 0x20 then none
    else (scanString s).map fun r => (c :: r.1, r.2)

def skipDigits : List UInt8 → List UInt8
  | [] => []
  | c :: s => if isDigit c then skipDigits s else c :: s

/-- The exponent part of a number, at the byte after `e` or `E`. -/
def scanExponent (s : List UInt8) : Option (List UInt8) :=
  let s1 := match s with
    | c :: t => if c = 0x2B ∨ c = 0x2D then t else c :: t
    | [] => []
  match s1 with
  | c :: t => if isDigit c then some (skipDigits t) else none
  | [] => none

/-- The fraction and exponent of a number, after its integer part. -/
def scanFraction (s : List UInt8) : Option (List UInt8) :=
  match s with
  | c :: t =>
    if c = 0x2E then
      match t with
      | d :: t1 =>
        if isDigit d then
          match skipDigits t1 with
          | e :: t2 => if e = 0x65 ∨ e = 0x45 then scanExponent t2 else some (e :: t2)
          | [] => some []
        else none
      | [] => none
    else if c = 0x65 ∨ c = 0x45 then scanExponent t
    else some (c :: t)
  | [] => some []

/-- The scanner on a number: the input after it. -/
def scanNumber (s : List UInt8) : Option (List UInt8) :=
  let s1 := match s with
    | c :: t => if c = 0x2D then t else c :: t
    | [] => []
  match s1 with
  | c :: t =>
    if c = 0x30 then scanFraction t
    else if isDigit c then scanFraction (skipDigits t)
    else none
  | [] => none

/-- The scanner on one of the words `true`, `false`, `null`. -/
def scanWord (word s : List UInt8) : Option (List UInt8) :=
  if word.isPrefixOf s then some (s.drop word.length) else none

mutual

/-- One JSON value at the head of the input (no leading space): its kind and the
input after it. `depth` counts the arrays and objects around it. -/
def scanValue : Nat → Nat → List UInt8 → Option (Tok × List UInt8)
  | 0, _, _ => none
  | fuel + 1, depth, s =>
    match s with
    | [] => none
    | c :: s1 =>
      if c = 0x7B then
        if depth + 1 > maxNestingDepth then none
        else (scanObject fuel (depth + 1) s1).map fun r => (Tok.object, r.2)
      else if c = 0x5B then
        if depth + 1 > maxNestingDepth then none
        else (scanArray fuel (depth + 1) s1).map fun r => (Tok.array, r)
      else if c = 0x22 then (scanString s1).map fun r => (Tok.string r.1, r.2)
      else if c = 0x2D ∨ isDigit c then (scanNumber (c :: s1)).map fun r => (Tok.number, r)
      else if c = 0x74 then (scanWord [0x74, 0x72, 0x75, 0x65] (c :: s1)).map fun r => (Tok.bool, r)
      else if c = 0x66 then
        (scanWord [0x66, 0x61, 0x6C, 0x73, 0x65] (c :: s1)).map fun r => (Tok.bool, r)
      else if c = 0x6E then (scanWord [0x6E, 0x75, 0x6C, 0x6C] (c :: s1)).map fun r => (Tok.null, r)
      else none
termination_by structural fuel => fuel

/-- An object after its opening brace: its members (literal key, kind of the
value) and the input after the closing brace. -/
def scanObject : Nat → Nat → List UInt8 → Option (List (List UInt8 × Tok) × List UInt8)
  | 0, _, _ => none
  | fuel + 1, depth, s =>
    match skipSpace s with
    | [] => none
    | c :: s1 => if c = 0x7D then some ([], s1) else scanMembers fuel depth (c :: s1)
termination_by structural fuel => fuel

/-- The members of an object, at the opening quote of a key. -/
def scanMembers : Nat → Nat → List UInt8 → Option (List (List UInt8 × Tok) × List UInt8)
  | 0, _, _ => none
  | fuel + 1, depth, s =>
    match s with
    | [] => none
    | c :: s1 =>
      if c = 0x22 then
        match scanString s1 with
        | none => none
        | some (key, s2) =>
          match skipSpace s2 with
          | [] => none
          | c2 :: s3 =>
            if c2 = 0x3A then
              match scanValue fuel depth (skipSpace s3) with
              | none => none
              | some (tok, s4) =>
                match skipSpace s4 with
                | [] => none
                | c4 :: s5 =>
                  if c4 = 0x2C then
                    (scanMembers fuel depth (skipSpace s5)).map fun r => ((key, tok) :: r.1, r.2)
                  else if c4 = 0x7D then some ([(key, tok)], s5)
                  else none
            else none
      else none
termination_by structural fuel => fuel

/-- An array after its opening bracket: the input after the closing bracket. -/
def scanArray : Nat → Nat → List UInt8 → Option (List UInt8)
  | 0, _, _ => none
  | fuel + 1, depth, s =>
    match skipSpace s with
    | [] => none
    | c :: s1 => if c = 0x5D then some s1 else scanElements fuel depth (c :: s1)
termination_by structural fuel => fuel

/-- The elements of an array, at the first byte of an element. -/
def scanElements : Nat → Nat → List UInt8 → Option (List UInt8)
  | 0, _, _ => none
  | fuel + 1, depth, s =>
    match scanValue fuel depth s with
    | none => none
    | some (_, s1) =>
      match skipSpace s1 with
      | [] => none
      | c :: s2 =>
        if c = 0x2C then scanElements fuel depth (skipSpace s2)
        else if c = 0x5D then some s2
        else none
termination_by structural fuel => fuel
end

/-- The whole input as one JSON value (`checkValid`, and the shape the decoder
then walks): the kind of the value and, for an object, its members. `none` is
a syntax error. -/
def scanTop (data : List UInt8) : Option (Tok × List (List UInt8 × Tok)) :=
  let fuel := 3 * data.length + 3
  match skipSpace data with
  | [] => none
  | c :: s =>
    if c = 0x7B then
      match scanObject fuel 1 s with
      | none => none
      | some (members, rest) =>
        if skipSpace rest = [] then some (Tok.object, members) else none
    else
      match scanValue fuel 0 (c :: s) with
      | none => none
      | some (tok, rest) => if skipSpace rest = [] then some (tok, []) else none

/-- The value of a hexadecimal digit. -/
def hexVal (c : UInt8) : Option Nat :=
  if isDigit c then some (c.toNat - 0x30)
  else if 0x61 ≤ c.toNat ∧ c.toNat ≤ 0x66 then some (c.toNat - 0x61 + 10)
  else if 0x41 ≤ c.toNat ∧ c.toNat ≤ 0x46 then some (c.toNat - 0x41 + 10)
  else none

/-- `getu4`: the rune of a `\uXXXX` escape at the head of the input, `none`
(`-1` in Go) if there is none. -/
def getu4 (s : List UInt8) : Option Nat :=
  match s with
  | c :: e :: h1 :: h2 :: h3 :: h4 :: _ =>
    if c = 0x5C ∧ e = 0x75 then
      match hexVal h1, hexVal h2, hexVal h3, hexVal h4 with
      | some a, some b, some c, some d => some (a * 4096 + b * 256 + c * 16 + d)
      | _, _, _, _ => none
    else none
  | _ => none

/-- One round of the loop of `unquoteBytes`, at the byte `c` followed by `rest`;
`k` unquotes what is left after the round. Bytes that are not valid UTF-8 are
replaced by `U+FFFD`; `none` is a malformed literal. (`unquoteBytes` copies a
leading run of bytes without escapes unchanged before it enters this loop; the
loop yields the same bytes for such a run.) -/
def unquoteStep (k : List UInt8 → Option (List UInt8)) (c : UInt8) (rest : List UInt8) :
    Option (List UInt8) :=
  if c = 0x5C then
    match rest with
    | [] => none
    | e :: rest1 =>
      if e = 0x22 ∨ e = 0x5C ∨ e = 0x2F ∨ e = 0x27 then (k rest1).map fun t => e :: t
      else if e = 0x62 then (k rest1).map fun t => 0x08 :: t
      else if e = 0x66 then (k rest1).map fun t => 0x0C :: t
      else if e = 0x6E then (k rest1).map fun t => 0x0A :: t
      else if e = 0x72 then (k rest1).map fun t => 0x0D :: t
      else if e = 0x74 then (k rest1).map fun t => 0x09 :: t
      else if e = 0x75 then
        match getu4 (c :: e :: rest1) with
        | none => none
        | some rr =>
          let rest2 := rest1.drop 4
          if utf16.IsSurrogate rr then
            let dec := match getu4 rest2 with
              | some rr1 => utf16.DecodeRune rr rr1
              | none => 0xFFFD
            if dec ≠ 0xFFFD then (k (rest2.drop 6)).map fun t => utf8.EncodeRune dec ++ t
            else (k rest2).map fun t => utf8.EncodeRune 0xFFFD ++ t
          else (k rest2).map fun t => utf8.EncodeRune rr ++ t
      else none
  else if c = 0x22 ∨ c.toNat < 0x20 then none
  else if c.toNat < 0x80 then (k rest).map fun t => c :: t
  else
    let d := utf8.DecodeRune (c :: rest)
    (k (rest.drop (d.2 - 1))).map fun t => utf8.EncodeRune d.1 ++ t

/-- The loop of `unquoteBytes` on the bytes between the quotes of a string
literal: the string the literal stands for. The first argument is fuel, the
length of the input is enough. -/
def unquoteBody : Nat → List UInt8 → Option (List UInt8)
  | _, [] => some []
  | 0, _ :: _ => none
  | fuel + 1, c :: rest => unquoteStep (unquoteBody fuel) c rest

/-- `unquoteBytes`, on the bytes between the quotes. -/
def unquote (body : List UInt8) : Option (List UInt8) := unquoteBody body.length body

/-- ASCII upper case of a byte. -/
def toUpper (c : UInt8) : UInt8 :=
  if 0x61 ≤ c.toNat ∧ c.toNat ≤ 0x7A then UInt8.ofNat (c.toNat - 0x20) else c

/-- Whether an object key selects the field tagged `name`: the exact name, or
else a key equal to it under case folding. -/
def keyIsName (key : List UInt8) : Bool :=
  key = lit "name" ∨ key.map toUpper = lit "NAME"

/-- The first error is the one `Unmarshal` reports (`saveError`). -/
def saveError (saved : Option Error) (err : Error) : Option Error :=
  match saved with
  | some e => some e
  | none => some err

/-- One member of the object being decoded into the struct: a string value of a
key that selects `Name` is stored, `null` leaves the field as it is, a value of
another kind is a type error; members with other keys are skipped. -/
def decodeMember (acc : GoString × Option Error) (m : List UInt8 × Tok) :
    GoString × Option Error :=
  match unquote m.1 with
  | none => acc
  | some key =>
    if keyIsName key then
      match m.2 with
      | Tok.string body =>
        match unquote body with
        | some s => (s, acc.2)
        | none => acc
      | Tok.null => acc
      | Tok.bool => (acc.1, saveError acc.2 (Error.UnmarshalTypeError (lit "bool")))
      | Tok.number => (acc.1, saveError acc.2 (Error.UnmarshalTypeError (lit "number")))
      | Tok.array => (acc.1, saveError acc.2 (Error.UnmarshalTypeError (lit "array")))
      | Tok.object => (acc.1, saveError acc.2 (Error.UnmarshalTypeError (lit "object")))
    else acc

/-- `json.Unmarshal(data, v)` for `v` a pointer to a struct whose only field
visible to the decoder is `Name string` tagged `json:"name,omitempty"`. Given
the current value of the field, the result is its value afterwards and the
error returned. -/
def unmarshalName (data : List UInt8) (name : GoString) : GoString × Option Error :=
  match scanTop data with
  | none => (name, some Error.SyntaxError)
  | some (Tok.object, members) => members.foldl decodeMember (name, none)
  | some (Tok.null, _) => (name, none)
  | some (Tok.string _, _) => (name, some (Error.UnmarshalTypeError (lit "string")))
  | some (Tok.number, _) => (name, some (Error.UnmarshalTypeError (lit "number")))
  | some (Tok.bool, _) => (name, some (Error.UnmarshalTypeError (lit "bool")))
  | some (Tok.array, _) => (name, some (Error.UnmarshalTypeError (lit "array")))

end json

/-! ## Package `errors` -/

namespace errors

/-- The kinds of error of package `errors`. -/
inductive ErrorKind
  | AlreadyExists
  | DeadlineExceeded
  | Internal
  | InvalidArgument
  | NotFound
  | PermissionDenied
  | PreconditionFailed
  | Unauthenticated
  | Unavailable
  | Unimplemented
  | ResourceExhausted
deriving DecidableEq, Repr

/-- Modelled from the spec: package `errors` is not among the sources. An error
has a kind (here `Internal`), carries "a stable short diagnostic code", a
message, and the error it wraps. -/
structure CaosError where
  Kind : ErrorKind
  Parent : Option json.Error
  ID : GoString
  Message : GoString
deriving DecidableEq, Repr

/-- Modelled from the spec: `errors.ThrowInternal(parent, id, message)` is not
among the sources; it builds the error of the Internal kind. -/
def ThrowInternal (parent : Option json.Error) (id message : GoString) : CaosError :=
  { Kind := .Internal
    Parent := parent
    ID := id
    Message := message }

end errors

/-! ## Package `eventstore`: constraints, aggregates, base events -/

namespace eventstore

/-- The action of a unique-constraint declaration. -/
inductive UniqueConstraintAction
  | UniqueConstraintAdd
  | UniqueConstraintRemove
deriving DecidableEq, Repr

/-- Modelled from the spec: the declaration of `eventstore.EventUniqueConstraint`
is not among the sources. The spec describes it as "a (constraint-table-key,
uniqueness-key, error-message-key) triple with an action of ADD or REMOVE". -/
structure EventUniqueConstraint where
  UniqueType : GoString
  UniqueField : GoString
  Action : UniqueConstraintAction
  ErrorMessage : GoString
deriving DecidableEq, Repr

/-- Modelled from the spec: `eventstore.NewAddEventUniqueConstraint` is not among
the sources; it builds the ADD declaration from the table key, the uniqueness
key and the error-message key it is given. -/
def NewAddEventUniqueConstraint (uniqueType uniqueField errMessage : GoString) :
    EventUniqueConstraint :=
  { UniqueType := uniqueType
    UniqueField := uniqueField
    Action := .UniqueConstraintAdd
    ErrorMessage := errMessage }

/-- Modelled from the spec: `eventstore.NewRemoveEventUniqueConstraint` is not
among the sources; it builds the REMOVE declaration from the table key and the
uniqueness key it is given (a REMOVE carries no error-message key). -/
def NewRemoveEventUniqueConstraint (uniqueType uniqueField : GoString) :
    EventUniqueConstraint :=
  { UniqueType := uniqueType
    UniqueField := uniqueField
    Action := .UniqueConstraintRemove
    ErrorMessage := [] }

/-- Modelled from the spec: `eventstore.Aggregate` is not among the sources: the
"aggregate reference (type + ID + tenant scope)" of the data model. The Go
field `Type` is spelled `Typ` here. -/
structure Aggregate where
  ID : GoString
  Typ : GoString
  ResourceOwner : GoString
  InstanceID : GoString
  Version : GoString
deriving DecidableEq, Repr

/-- What `NewBaseEventForPush` reads from its `context.Context`: the editor. -/
structure Context where
  UserID : GoString
  Service : GoString
deriving DecidableEq, Repr

/-- Modelled from the spec: `eventstore.BaseEvent` is not among the sources: the
shared "identity/provenance/sequence" value every concrete event embeds. -/
structure BaseEvent where
  EventType : GoString
  Agg : Aggregate
  User : GoString
  Service : GoString
  Seq : Nat
  Data : List UInt8
deriving DecidableEq, Repr

/-- The accessor `BaseEvent.Aggregate()`. -/
def BaseEvent.Aggregate (e : BaseEvent) : Aggregate := e.Agg

/-- The method `Type()` of the interface `Event`; every event of the repository
answers it through the base event it embeds. The Go name `Type` is spelled
`Typ` here. -/
def BaseEvent.Typ (e : BaseEvent) : GoString := e.EventType

/-- `isEventTypes` of `event.go`: the loop over the candidate types, which
returns at the first one that equals the type of the event. -/
def isEventTypes (event : BaseEvent) : List GoString → Bool
  | [] => false
  | typ :: types => if event.Typ = typ then true else isEventTypes event types

/-- Modelled from the spec: `eventstore.NewBaseEventForPush` is not among the
sources; it initialises the shared value of a not-yet-persisted event from the
editor in the context, the aggregate and the event type. -/
def NewBaseEventForPush (ctx : Context) (aggregate : Aggregate) (typ : GoString) :
    BaseEvent :=
  { EventType := typ
    Agg := aggregate
    User := ctx.UserID
    Service := ctx.Service
    Seq := 0
    Data := [] }

end eventstore

namespace repository

/-- Modelled from the spec: `repository.Event`, the "generic stored event record",
is not among the sources. `Data` is the stored payload. The Go field `Type` is
spelled `Typ` here. -/
structure Event where
  Sequence : Nat
  Typ : GoString
  Data : List UInt8
  EditorService : GoString
  EditorUser : GoString
  Version : GoString
  AggregateID : GoString
  AggregateType : GoString
  ResourceOwner : GoString
  InstanceID : GoString
deriving DecidableEq, Repr

end repository

namespace eventstore

/-- Modelled from the spec: `eventstore.BaseEventFromRepo` is not among the
sources; it rebuilds the shared value of an event from its stored record. -/
def BaseEventFromRepo (event : repository.Event) : BaseEvent :=
  { EventType := event.Typ
    Agg :=
      { ID := event.AggregateID
        Typ := event.AggregateType
        ResourceOwner := event.ResourceOwner
        InstanceID := event.InstanceID
        Version := event.Version }
    User := event.EditorUser
    Service := event.EditorService
    Seq := event.Sequence
    Data := event.Data }

end eventstore

/-! ## Constraint helpers of the packages `user`, `org` (domain file) and `project` -/

/-- The table keys and key encodings of the constraint helpers that live in
files that are not among the sources. The spec names the namespaces
(organization domain, username, external-identity-provider link, SAML entity
ID) but not their table keys nor how a key is put together, so these are
parameters of the embedding. -/
structure ConstraintKeys where
  uniqueOrgDomain : GoString
  uniqueUsername : GoString
  usernameKey : GoString → GoString → Bool → GoString
  uniqueUserIDPLink : GoString
  userIDPLinkKey : GoString → GoString → GoString
  uniqueSAMLEntityID : GoString

namespace user

/-- Modelled from the spec: `user.NewRemoveUsernameUniqueConstraint` is not among
the sources: the REMOVE of a username claim, in the username namespace, "scoped
by owning-organization and a domain-required flag". -/
def NewRemoveUsernameUniqueConstraint (k : ConstraintKeys)
    (userName resourceOwner : GoString) (userLoginMustBeDomain : Bool) :
    eventstore.EventUniqueConstraint :=
  eventstore.NewRemoveEventUniqueConstraint k.uniqueUsername
    (k.usernameKey userName resourceOwner userLoginMustBeDomain)

/-- Modelled from the spec: `user.NewRemoveUserIDPLinkUniqueConstraint` is not
among the sources: the REMOVE of an external-identity-provider link claim,
"scoped by provider config ID + external user ID". -/
def NewRemoveUserIDPLinkUniqueConstraint (k : ConstraintKeys)
    (idpConfigID externalUserID : GoString) : eventstore.EventUniqueConstraint :=
  eventstore.NewRemoveEventUniqueConstraint k.uniqueUserIDPLink
    (k.userIDPLinkKey idpConfigID externalUserID)

end user

namespace project

/-- Modelled from the spec: `project.NewRemoveSAMLConfigEntityIDUniqueConstraint`
is not among the sources: the REMOVE of a SAML entity-ID claim. -/
def NewRemoveSAMLConfigEntityIDUniqueConstraint (k : ConstraintKeys)
    (entityID : GoString) : eventstore.EventUniqueConstraint :=
  eventstore.NewRemoveEventUniqueConstraint k.uniqueSAMLEntityID entityID

end project

namespace domain

/-- Modelled from the spec: `domain.UserIDPLink` is not among the sources; the
event reads its `IDPConfigID` and `ExternalUserID`. -/
structure UserIDPLink where
  IDPConfigID : GoString
  ExternalUserID : GoString
  DisplayName : GoString
deriving DecidableEq, Repr

end domain

/-! ## Package `org` -/

namespace org

open eventstore

def uniqueOrgname : GoString := lit "org_name"

/-- Modelled from the spec: the constant `orgEventTypePrefix` is declared in a
file that is not among the sources; event types are "namespaced e.g.
org.added". -/
def orgEventTypePrefix : GoString := lit "org."

def OrgAddedEventType : GoString := orgEventTypePrefix ++ lit "added"
def OrgChangedEventType : GoString := orgEventTypePrefix ++ lit "changed"
def OrgDeactivatedEventType : GoString := orgEventTypePrefix ++ lit "deactivated"
def OrgReactivatedEventType : GoString := orgEventTypePrefix ++ lit "reactivated"
def OrgRemovedEventType : GoString := orgEventTypePrefix ++ lit "removed"

def NewAddOrgNameUniqueConstraint (orgName : GoString) : EventUniqueConstraint :=
  NewAddEventUniqueConstraint uniqueOrgname orgName (lit "Errors.Org.AlreadyExists")

def NewRemoveOrgNameUniqueConstraint (orgName : GoString) : EventUniqueConstraint :=
  NewRemoveEventUniqueConstraint uniqueOrgname orgName

/-- Modelled from the spec: `NewRemoveOrgDomainUniqueConstraint` is declared in a
file of package `org` that is not among the sources: the REMOVE of an
organization-domain claim. -/
def NewRemoveOrgDomainUniqueConstraint (k : ConstraintKeys) (orgDomain : GoString) :
    EventUniqueConstraint :=
  NewRemoveEventUniqueConstraint k.uniqueOrgDomain orgDomain

structure OrgAddedEvent where
  BaseEvent : eventstore.BaseEvent
  Name : GoString
deriving DecidableEq, Repr

structure OrgChangedEvent where
  BaseEvent : eventstore.BaseEvent
  Name : GoString
  oldName : GoString
deriving DecidableEq, Repr

structure OrgDeactivatedEvent where
  BaseEvent : eventstore.BaseEvent
deriving DecidableEq, Repr

structure OrgReactivatedEvent where
  BaseEvent : eventstore.BaseEvent
deriving DecidableEq, Repr

structure OrgRemovedEvent where
  BaseEvent : eventstore.BaseEvent
  name : GoString
  usernames : List GoString
  loginMustBeDomain : Bool
  domains : List GoString
  externalIDPs : List domain.UserIDPLink
  samlEntityIDs : List GoString
deriving DecidableEq, Repr

/-- The values of the interface `eventstore.Event` that this catalog produces:
a pointer to one of the five concrete event types. -/
inductive Event
  | orgAdded (e : OrgAddedEvent)
  | orgChanged (e : OrgChangedEvent)
  | orgDeactivated (e : OrgDeactivatedEvent)
  | orgReactivated (e : OrgReactivatedEvent)
  | orgRemoved (e : OrgRemovedEvent)
deriving DecidableEq, Repr

/-! ### `OrgAddedEvent` -/

/-- The method `Payload`: an `interface{}`, here `none` for `nil` and `some` of
the event the returned pointer points to. -/
def OrgAddedEvent.Payload (e : OrgAddedEvent) : Option Event := some (.orgAdded e)

def OrgAddedEvent.UniqueConstraints (e : OrgAddedEvent) : List EventUniqueConstraint :=
  [NewAddOrgNameUniqueConstraint e.Name]

def NewOrgAddedEvent (ctx : Context) (aggregate : Aggregate) (name : GoString) :
    OrgAddedEvent :=
  { BaseEvent := NewBaseEventForPush ctx aggregate OrgAddedEventType
    Name := name }

/-! ### `OrgChangedEvent` -/

def OrgChangedEvent.Payload (e : OrgChangedEvent) : Option Event := some (.orgChanged e)

def OrgChangedEvent.UniqueConstraints (e : OrgChangedEvent) : List EventUniqueConstraint :=
  [ NewRemoveOrgNameUniqueConstraint e.oldName,
    NewAddOrgNameUniqueConstraint e.Name ]

def NewOrgChangedEvent (ctx : Context) (aggregate : Aggregate) (oldName newName : GoString) :
    OrgChangedEvent :=
  { BaseEvent := NewBaseEventForPush ctx aggregate OrgChangedEventType
    Name := newName
    oldName := oldName }

/-! ### `OrgDeactivatedEvent` and `OrgReactivatedEvent` -/

def OrgDeactivatedEvent.Payload (e : OrgDeactivatedEvent) : Option Event :=
  some (.orgDeactivated e)

def OrgDeactivatedEvent.UniqueConstraints (_e : OrgDeactivatedEvent) :
    List EventUniqueConstraint :=
  []

def NewOrgDeactivatedEvent (ctx : Context) (aggregate : Aggregate) : OrgDeactivatedEvent :=
  { BaseEvent := NewBaseEventForPush ctx aggregate OrgDeactivatedEventType }

def OrgReactivatedEvent.Payload (e : OrgReactivatedEvent) : Option Event :=
  some (.orgReactivated e)

def OrgReactivatedEvent.UniqueConstraints (_e : OrgReactivatedEvent) :
    List EventUniqueConstraint :=
  []

def NewOrgReactivatedEvent (ctx : Context) (aggregate : Aggregate) : OrgReactivatedEvent :=
  { BaseEvent := NewBaseEventForPush ctx aggregate OrgReactivatedEventType }

/-! ### `OrgRemovedEvent` -/

def OrgRemovedEvent.Payload (_e : OrgRemovedEvent) : Option Event := none

/-- The four `for ... range` loops of the method, each appending one declaration
per element in the order of the slice. -/
def OrgRemovedEvent.UniqueConstraints (k : ConstraintKeys) (e : OrgRemovedEvent) :
    List EventUniqueConstraint :=
  let constraints := [NewRemoveOrgNameUniqueConstraint e.name]
  let constraints := e.usernames.foldl
    (fun cs name => cs ++ [user.NewRemoveUsernameUniqueConstraint k name
      e.BaseEvent.Aggregate.ID e.loginMustBeDomain]) constraints
  let constraints := e.domains.foldl
    (fun cs dom => cs ++ [NewRemoveOrgDomainUniqueConstraint k dom]) constraints
  let constraints := e.externalIDPs.foldl
    (fun cs idp => cs ++ [user.NewRemoveUserIDPLinkUniqueConstraint k idp.IDPConfigID
      idp.ExternalUserID]) constraints
  let constraints := e.samlEntityIDs.foldl
    (fun cs entityID => cs ++ [project.NewRemoveSAMLConfigEntityIDUniqueConstraint k entityID])
    constraints
  constraints

def NewOrgRemovedEvent (ctx : Context) (aggregate : Aggregate) (name : GoString)
    (usernames : List GoString) (loginMustBeDomain : Bool) (domains : List GoString)
    (externalIDPs : List domain.UserIDPLink) (samlEntityIDs : List GoString) :
    OrgRemovedEvent :=
  { BaseEvent := NewBaseEventForPush ctx aggregate OrgRemovedEventType
    name := name
    usernames := usernames
    domains := domains
    externalIDPs := externalIDPs
    samlEntityIDs := samlEntityIDs
    loginMustBeDomain := loginMustBeDomain }

/-! ### Mappers -/

/-- `json.Unmarshal(event.Data, orgAdded)`: the struct after the call and the
error returned. `BaseEvent` is tagged `json:"-"`, so `Name` is the only field
the decoder can reach. -/
def unmarshalOrgAdded (data : List UInt8) (v : OrgAddedEvent) :
    OrgAddedEvent × Option json.Error :=
  let r := json.unmarshalName data v.Name
  ({ v with Name := r.1 }, r.2)

def OrgAddedEventMapper (event : repository.Event) : Option Event × Option errors.CaosError :=
  let orgAdded : OrgAddedEvent := { BaseEvent := BaseEventFromRepo event, Name := [] }
  let r := unmarshalOrgAdded event.Data orgAdded
  match r.2 with
  | some err =>
    (none, some (errors.ThrowInternal (some err) (lit "ORG-Bren2")
      (lit "unable to unmarshal org added")))
  | none => (some (.orgAdded r.1), none)

/-- `json.Unmarshal(event.Data, orgChanged)`: `oldName` is unexported and tagged
`json:"-"`, so `Name` is the only field the decoder can reach. -/
def unmarshalOrgChanged (data : List UInt8) (v : OrgChangedEvent) :
    OrgChangedEvent × Option json.Error :=
  let r := json.unmarshalName data v.Name
  ({ v with Name := r.1 }, r.2)

def OrgChangedEventMapper (event : repository.Event) : Option Event × Option errors.CaosError :=
  let orgChanged : OrgChangedEvent :=
    { BaseEvent := BaseEventFromRepo event, Name := [], oldName := [] }
  let r := unmarshalOrgChanged event.Data orgChanged
  match r.2 with
  | some err =>
    (none, some (errors.ThrowInternal (some err) (lit "ORG-Bren2")
      (lit "unable to unmarshal org added")))
  | none => (some (.orgChanged r.1), none)

def OrgDeactivatedEventMapper (event : repository.Event) :
    Option Event × Option errors.CaosError :=
  (some (.orgDeactivated { BaseEvent := BaseEventFromRepo event }), none)

def OrgReactivatedEventMapper (event : repository.Event) :
    Option Event × Option errors.CaosError :=
  (some (.orgReactivated { BaseEvent := BaseEventFromRepo event }), none)

def OrgRemovedEventMapper (event : repository.Event) : Option Event × Option errors.CaosError :=
  (some (.orgRemoved
    { BaseEvent := BaseEventFromRepo event
      name := []
      usernames := []
      loginMustBeDomain := false
      domains := []
      externalIDPs := []
      samlEntityIDs := [] }), none)

/-! ### Stored payloads -/

/-- `json.Marshal` of a pointer to an event of the catalog. `BaseEvent` is
tagged `json:"-"` and unexported fields are invisible to the encoder, so an
added or changed event is written as its `Name` and the other three as the
empty object. -/
def jsonMarshal : Event → List UInt8
  | .orgAdded e => json.marshalName e.Name
  | .orgChanged e => json.marshalName e.Name
  | .orgDeactivated _ => [0x7B, 0x7D]
  | .orgReactivated _ => [0x7B, 0x7D]
  | .orgRemoved _ => [0x7B, 0x7D]

/-- Modelled from the spec: `eventstore.EventData`, which turns the payload of
an event to be pushed into the stored bytes, is not among the sources: "events
whose Data()/Payload() is non-nil are serialized to a self-describing
structured byte format (field names preserved, omit-if-empty semantics
honored) for storage". A nil payload is stored as no bytes. -/
def EventData (payload : Option Event) : List UInt8 :=
  match payload with
  | none => []
  | some e => jsonMarshal e

end org

/-! ## The constraint table of the persistence layer -/

namespace eventstore

/-- Modelled from the spec: the table of currently held uniqueness claims is kept
by the persistence layer, which is not among the sources. It holds the "ADDed
but not REMOVEd" pairs of table key and uniqueness key. -/
abbrev ConstraintTable := List (GoString × GoString)

/-- Whether the key is currently held in the namespace. -/
def claimed (t : ConstraintTable) (uniqueType uniqueField : GoString) : Bool :=
  decide ((uniqueType, uniqueField) ∈ t)

/-- Modelled from the spec: the effect of one declaration on the table. "REMOVE
constraints release a previously held key"; an ADD claims the key, and
"persistence of an event carrying an ADD constraint must fail atomically if the
uniqueness-key already exists unresolved", the failure carrying the
error-message key of the declaration. -/
def applyConstraint (t : ConstraintTable) (c : EventUniqueConstraint) :
    Except GoString ConstraintTable :=
  match c.Action with
  | .UniqueConstraintAdd =>
    if claimed t c.UniqueType c.UniqueField then .error c.ErrorMessage
    else .ok ((c.UniqueType, c.UniqueField) :: t)
  | .UniqueConstraintRemove =>
    .ok (t.filter fun p => decide (p ≠ (c.UniqueType, c.UniqueField)))

/-- The declarations of an event applied in list order; the first failure stops
the run. -/
def applyConstraints (t : ConstraintTable) :
    List EventUniqueConstraint → Except GoString ConstraintTable
  | [] => .ok t
  | c :: cs =>
    match applyConstraint t c with
    | .ok t1 => applyConstraints t1 cs
    | .error msg => .error msg

/-- The states of the table reached while the declarations are applied in list
order, the starting state first. -/
def reachedStates (t : ConstraintTable) : List EventUniqueConstraint → List ConstraintTable
  | [] => [t]
  | c :: cs =>
    match applyConstraint t c with
    | .ok t1 => t :: reachedStates t1 cs
    | .error _ => [t]

end eventstore

/-! ## Package `iam`: the read model -/

namespace eventstore

/-- The concrete types of event the IAM read model switches on (of the packages
`member`, `policy` and `iam`), with the fields it reads; `other` stands for
every other type. The declarations of these types are not among the sources. -/
inductive EventBody
  | memberAddedEvent
  | memberChangedEvent
  | memberRemovedEvent
  | labelPolicyAddedEvent
  | labelPolicyChangedEvent
  | loginPolicyAddedEvent
  | loginPolicyChangedEvent
  | orgIAMPolicyAddedEvent
  | passwordComplexityPolicyAddedEvent
  | passwordComplexityPolicyChangedEvent
  | passwordAgePolicyAddedEvent
  | passwordAgePolicyChangedEvent
  | passwordLockoutPolicyAddedEvent
  | passwordLockoutPolicyChangedEvent
  | projectSetEvent (ProjectID : GoString)
  | globalOrgSetEvent (OrgID : GoString)
  | setupStepEvent (Step : Int) (Done : Bool)
  | other (typ : GoString)
deriving DecidableEq, Repr

/-- A value of the interface `eventstore.EventReader`: an event with its
position in the log and its concrete type. -/
structure EventReader where
  Sequence : Nat
  Body : EventBody
deriving DecidableEq, Repr

/-- Modelled from the spec: the base `eventstore.ReadModel` is not among the
sources. It owns "the raw ordered Event list it has consumed" and the
bookkeeping of the reduction. -/
structure ReadModel where
  AggregateID : GoString
  ProcessedSequence : Nat
  Events : List EventReader
deriving DecidableEq, Repr

/-- Modelled from the spec: the base `ReadModel.AppendEvents` is not among the
sources; it "appends to the raw held sequence (preserving arrival order)". -/
def ReadModel.AppendEvents (rm : ReadModel) (events : List EventReader) : ReadModel :=
  { rm with Events := rm.Events ++ events }

/-- Modelled from the spec: the base `ReadModel.Reduce` is not among the sources:
"the base read-model bookkeeping (e.g., advancing a processed-sequence
watermark)". The watermark becomes the sequence of the last held event; the
held events stay, and no error is returned. -/
def ReadModel.Reduce (rm : ReadModel) : ReadModel × Option errors.CaosError :=
  match rm.Events.getLast? with
  | some event => ({ rm with ProcessedSequence := event.Sequence }, none)
  | none => (rm, none)

end eventstore

namespace iam

open eventstore

/-- Modelled from the spec: the nested read models (`MembersReadModel`,
`LoginPolicyReadModel`, ...) are not among the sources. Each holds the events
routed to it, in the order they were routed, and a derived state of its own,
of a type `σ` the embedding leaves open. -/
structure SubReadModel (σ : Type) where
  Events : List EventReader
  State : σ

/-- Modelled from the spec: `AppendEvents` of a nested read model queues the
events it is given behind those it holds. -/
def SubReadModel.AppendEvents {σ : Type} (rm : SubReadModel σ) (events : List EventReader) :
    SubReadModel σ :=
  { rm with Events := rm.Events ++ events }

/-- The struct `ReadModel` of package `iam`. The embedded base read model, in Go
the field `ReadModel`, is the field `Base` here. -/
structure ReadModel (σ : Type) where
  Base : eventstore.ReadModel
  SetUpStarted : Int
  SetUpDone : Int
  Members : SubReadModel σ
  GlobalOrgID : GoString
  ProjectID : GoString
  DefaultLoginPolicy : SubReadModel σ
  DefaultLabelPolicy : SubReadModel σ
  DefaultOrgIAMPolicy : SubReadModel σ
  DefaultPasswordComplexityPolicy : SubReadModel σ
  DefaultPasswordAgePolicy : SubReadModel σ
  DefaultPasswordLockoutPolicy : SubReadModel σ

/-- `NewReadModel(id)`: every field but the aggregate ID has its zero value;
`zero` is the zero value of the state of a nested read model. -/
def NewReadModel {σ : Type} (zero : σ) (id : GoString) : ReadModel σ :=
  { Base := { AggregateID := id, ProcessedSequence := 0, Events := [] }
    SetUpStarted := 0
    SetUpDone := 0
    Members := { Events := [], State := zero }
    GlobalOrgID := []
    ProjectID := []
    DefaultLoginPolicy := { Events := [], State := zero }
    DefaultLabelPolicy := { Events := [], State := zero }
    DefaultOrgIAMPolicy := { Events := [], State := zero }
    DefaultPasswordComplexityPolicy := { Events := [], State := zero }
    DefaultPasswordAgePolicy := { Events := [], State := zero }
    DefaultPasswordLockoutPolicy := { Events := [], State := zero } }

/-- The body of the loop of `AppendEvents`: the type switch that routes one
event to the nested read model that handles its type, if there is one. -/
def routeEvent {σ : Type} (rm : ReadModel σ) (event : EventReader) : ReadModel σ :=
  match event.Body with
  | .memberAddedEvent | .memberChangedEvent | .memberRemovedEvent =>
    { rm with Members := rm.Members.AppendEvents [event] }
  | .labelPolicyAddedEvent | .labelPolicyChangedEvent =>
    { rm with DefaultLabelPolicy := rm.DefaultLabelPolicy.AppendEvents [event] }
  | .loginPolicyAddedEvent | .loginPolicyChangedEvent =>
    { rm with DefaultLoginPolicy := rm.DefaultLoginPolicy.AppendEvents [event] }
  | .orgIAMPolicyAddedEvent =>
    { rm with DefaultOrgIAMPolicy := rm.DefaultOrgIAMPolicy.AppendEvents [event] }
  | .passwordComplexityPolicyAddedEvent | .passwordComplexityPolicyChangedEvent =>
    { rm with
      DefaultPasswordComplexityPolicy := rm.DefaultPasswordComplexityPolicy.AppendEvents [event] }
  | .passwordAgePolicyAddedEvent | .passwordAgePolicyChangedEvent =>
    { rm with DefaultPasswordAgePolicy := rm.DefaultPasswordAgePolicy.AppendEvents [event] }
  | .passwordLockoutPolicyAddedEvent | .passwordLockoutPolicyChangedEvent =>
    { rm with
      DefaultPasswordLockoutPolicy := rm.DefaultPasswordLockoutPolicy.AppendEvents [event] }
  | _ => rm

def ReadModel.AppendEvents {σ : Type} (rm : ReadModel σ) (events : List EventReader) :
    ReadModel σ :=
  let rm := { rm with Base := rm.Base.AppendEvents events }
  events.foldl routeEvent rm

/-- The body of the first loop of `Reduce`: the type switch on one held event. -/
def reduceEvent {σ : Type} (rm : ReadModel σ) (event : EventReader) : ReadModel σ :=
  match event.Body with
  | .projectSetEvent projectID => { rm with ProjectID := projectID }
  | .globalOrgSetEvent orgID => { rm with GlobalOrgID := orgID }
  | .setupStepEvent step done =>
    if done then { rm with SetUpDone := step } else { rm with SetUpStarted := step }
  | _ => rm

/-- The first loop of `Reduce`: the held events folded, in the order they are
held, into the fields the read model keeps itself. -/
def ReadModel.reduceDirect {σ : Type} (rm : ReadModel σ) : ReadModel σ :=
  rm.Base.Events.foldl reduceEvent rm

/-- The `Reduce` methods of the nested read models and of the base read model.
None of them is among the sources, so they are parameters: what each does to
the model it is called on, and the error it returns. -/
structure Reducers (σ : Type) where
  Members : SubReadModel σ → SubReadModel σ × Option errors.CaosError
  DefaultLoginPolicy : SubReadModel σ → SubReadModel σ × Option errors.CaosError
  DefaultLabelPolicy : SubReadModel σ → SubReadModel σ × Option errors.CaosError
  DefaultOrgIAMPolicy : SubReadModel σ → SubReadModel σ × Option errors.CaosError
  DefaultPasswordComplexityPolicy : SubReadModel σ → SubReadModel σ × Option errors.CaosError
  DefaultPasswordAgePolicy : SubReadModel σ → SubReadModel σ × Option errors.CaosError
  DefaultPasswordLockoutPolicy : SubReadModel σ → SubReadModel σ × Option errors.CaosError
  ReadModel : eventstore.ReadModel → eventstore.ReadModel × Option errors.CaosError

/-- `Reduce`: the loop over the held events, then the loop over the eight
reducers, which returns at the first error. The result is the read model
after the call and the error returned. -/
def ReadModel.Reduce {σ : Type} (R : Reducers σ) (rm : ReadModel σ) :
    ReadModel σ × Option errors.CaosError :=
  let rm := rm.reduceDirect
  let r := R.Members rm.Members
  let rm := { rm with Members := r.1 }
  match r.2 with
  | some err => (rm, some err)
  | none =>
  let r := R.DefaultLoginPolicy rm.DefaultLoginPolicy
  let rm := { rm with DefaultLoginPolicy := r.1 }
  match r.2 with
  | some err => (rm, some err)
  | none =>
  let r := R.DefaultLabelPolicy rm.DefaultLabelPolicy
  let rm := { rm with DefaultLabelPolicy := r.1 }
  match r.2 with
  | some err => (rm, some err)
  | none =>
  let r := R.DefaultOrgIAMPolicy rm.DefaultOrgIAMPolicy
  let rm := { rm with DefaultOrgIAMPolicy := r.1 }
  match r.2 with
  | some err => (rm, some err)
  | none =>
  let r := R.DefaultPasswordComplexityPolicy rm.DefaultPasswordComplexityPolicy
  let rm := { rm with DefaultPasswordComplexityPolicy := r.1 }
  match r.2 with
  | some err => (rm, some err)
  | none =>
  let r := R.DefaultPasswordAgePolicy rm.DefaultPasswordAgePolicy
  let rm := { rm with DefaultPasswordAgePolicy := r.1 }
  match r.2 with
  | some err => (rm, some err)
  | none =>
  let r := R.DefaultPasswordLockoutPolicy rm.DefaultPasswordLockoutPolicy
  let rm := { rm with DefaultPasswordLockoutPolicy := r.1 }
  match r.2 with
  | some err => (rm, some err)
  | none =>
  let r := R.ReadModel rm.Base
  let rm := { rm with Base := r.1 }
  match r.2 with
  | some err => (rm, some err)
  | none => (rm, none)

/-! ### `AppendAndReduce`

The method `AppendAndReduce` (lines 91 to 96 of `read_model.go`) is not
embedded. Its body binds the result of `rm.AppendEvents(events...)` to a
variable `err`, returns `err` when it is not nil and returns `rm.Reduce()`
otherwise; `AppendEvents` is declared at line 36 of the same file without a
result, so the call has no value to bind. The method does not type-check as
written, and there is no behaviour of it to translate. -/

/-! ### Predicates and instances used by the theorems -/

/-- A field `π` of the read model is written or kept by every event: the value
after the event either does not depend on the read model before, or is the
value before. -/
def WrittenOrKept {σ α : Type} (π : ReadModel σ → α) : Prop :=
  ∀ e : EventReader,
    (∀ X Y : ReadModel σ, π (reduceEvent X e) = π (reduceEvent Y e)) ∨
    (∀ X : ReadModel σ, π (reduceEvent X e) = π X)

/-- Reducers for concrete instances: nested read models whose `Reduce` changes
nothing and succeeds, and the base `Reduce` of the spec. -/
def Reducers.idle (σ : Type) : Reducers σ :=
  { Members := fun s => (s, none)
    DefaultLoginPolicy := fun s => (s, none)
    DefaultLabelPolicy := fun s => (s, none)
    DefaultOrgIAMPolicy := fun s => (s, none)
    DefaultPasswordComplexityPolicy := fun s => (s, none)
    DefaultPasswordAgePolicy := fun s => (s, none)
    DefaultPasswordLockoutPolicy := fun s => (s, none)
    ReadModel := eventstore.ReadModel.Reduce }

/-- Reducers for concrete instances: as `Reducers.idle`, but `Members.Reduce`
fails ("e.g., a malformed nested event"). -/
def Reducers.membersFail (σ : Type) : Reducers σ :=
  { Reducers.idle σ with
    Members := fun s =>
      (s, some (errors.ThrowInternal none (lit "MEMBER-Fail1") (lit "malformed member event"))) }

end iam

/-! # Theorems -/

/-! ## Bytes and UTF-8 -/

theorem toNat_lt (b : UInt8) : b.toNat < 256 := b.toNat_lt_size

theorem ofNat_toNat (b : UInt8) : UInt8.ofNat b.toNat = b := by
  rcases b with ⟨⟨n, hn⟩⟩
  apply UInt8.ext
  simp [UInt8.ofNat, UInt8.toNat, Fin.ofNat]
  exact hn

theorem ofNat_eq_of_toNat_eq {n : Nat} {b : UInt8} (h : n = b.toNat) : UInt8.ofNat n = b := by
  subst h; exact ofNat_toNat b




namespace utf8

theorem first_ascii (n : Nat) (h : n < 0x80) : first n = 0xF0 := by
  unfold first
  rw [if_pos h]

theorem first_invalid (n : Nat) (h1 : 0x80 ≤ n) (h2 : n < 0xC2 ∨ 0xF5 ≤ n) : first n = 0xF1 := by
  unfold first
  split_ifs <;> first | rfl | omega

theorem first_two (n : Nat) (h1 : 0xC2 ≤ n) (h2 : n < 0xE0) : first n = 0x02 := by
  unfold first
  split_ifs <;> first | rfl | omega

theorem first_three (n : Nat) (h1 : 0xE1 ≤ n) (h2 : n < 0xF0) (h3 : n ≠ 0xED) :
    first n = 0x03 := by
  unfold first
  split_ifs <;> first | rfl | omega

theorem first_four (n : Nat) (h1 : 0xF1 ≤ n) (h2 : n < 0xF4) : first n = 0x04 := by
  unfold first
  split_ifs <;> first | rfl | omega

theorem decodeTail_two (p0 lo hi : Nat) (rest : List UInt8) :
    decodeTail p0 2 lo hi rest =
      match rest with
      | [] => (RuneError, 1)
      | b1 :: _ =>
        if b1.toNat < lo ∨ hi < b1.toNat then (RuneError, 1)
        else (p0 % 32 * 64 + b1.toNat % 64, 2) := by
  rcases rest with _ | ⟨b1, t⟩
  · simp [decodeTail]
  · simp [decodeTail]

theorem decodeTail_three (p0 lo hi : Nat) (rest : List UInt8) :
    decodeTail p0 3 lo hi rest =
      match rest with
      | b1 :: b2 :: _ =>
        if b1.toNat < lo ∨ hi < b1.toNat then (RuneError, 1)
        else if b2.toNat < 0x80 ∨ 0xBF < b2.toNat then (RuneError, 1)
        else (p0 % 16 * 4096 + b1.toNat % 64 * 64 + b2.toNat % 64, 3)
      | _ => (RuneError, 1) := by
  rcases rest with _ | ⟨b1, _ | ⟨b2, t⟩⟩
  · simp [decodeTail]
  · simp [decodeTail]
  · simp [decodeTail]

theorem decodeTail_four (p0 lo hi : Nat) (rest : List UInt8) :
    decodeTail p0 4 lo hi rest =
      match rest with
      | b1 :: b2 :: b3 :: _ =>
        if b1.toNat < lo ∨ hi < b1.toNat then (RuneError, 1)
        else if b2.toNat < 0x80 ∨ 0xBF < b2.toNat then (RuneError, 1)
        else if b3.toNat < 0x80 ∨ 0xBF < b3.toNat then (RuneError, 1)
        else
          (p0 % 8 * 262144 + b1.toNat % 64 * 4096 + b2.toNat % 64 * 64 + b3.toNat % 64, 4)
      | _ => (RuneError, 1) := by
  rcases rest with _ | ⟨b1, _ | ⟨b2, _ | ⟨b3, t⟩⟩⟩
  · simp [decodeTail]
  · simp [decodeTail]
  · simp [decodeTail]
  · simp [decodeTail]



theorem decodeTail_two_valid (p0 lo hi : Nat) (rest : List UInt8) (r size : Nat)
    (h : decodeTail p0 2 lo hi rest = (r, size)) (hv : ¬ (r = RuneError ∧ size = 1)) :
    ∃ b1 t, rest = b1 :: t ∧ lo ≤ b1.toNat ∧ b1.toNat ≤ hi ∧
      r = p0 % 32 * 64 + b1.toNat % 64 ∧ size = 2 := by
  rw [decodeTail_two] at h
  rcases rest with _ | ⟨b1, t⟩
  · simp only [Prod.mk.injEq] at h
    exact absurd ⟨h.1.symm, h.2.symm⟩ hv
  · simp only at h
    split_ifs at h with hb
    · simp only [Prod.mk.injEq] at h
      exact absurd ⟨h.1.symm, h.2.symm⟩ hv
    · simp only [Prod.mk.injEq] at h
      exact ⟨b1, t, rfl, by omega, by omega, h.1.symm, h.2.symm⟩

theorem decodeTail_three_valid (p0 lo hi : Nat) (rest : List UInt8) (r size : Nat)
    (h : decodeTail p0 3 lo hi rest = (r, size)) (hv : ¬ (r = RuneError ∧ size = 1)) :
    ∃ b1 b2 t, rest = b1 :: b2 :: t ∧ lo ≤ b1.toNat ∧ b1.toNat ≤ hi ∧
      0x80 ≤ b2.toNat ∧ b2.toNat ≤ 0xBF ∧
      r = p0 % 16 * 4096 + b1.toNat % 64 * 64 + b2.toNat % 64 ∧ size = 3 := by
  rw [decodeTail_three] at h
  rcases rest with _ | ⟨b1, _ | ⟨b2, t⟩⟩
  · simp only [Prod.mk.injEq] at h
    exact absurd ⟨h.1.symm, h.2.symm⟩ hv
  · simp only [Prod.mk.injEq] at h
    exact absurd ⟨h.1.symm, h.2.symm⟩ hv
  · simp only at h
    split_ifs at h with hb1 hb2
    · simp only [Prod.mk.injEq] at h
      exact absurd ⟨h.1.symm, h.2.symm⟩ hv
    · simp only [Prod.mk.injEq] at h
      exact absurd ⟨h.1.symm, h.2.symm⟩ hv
    · simp only [Prod.mk.injEq] at h
      exact ⟨b1, b2, t, rfl, by omega, by omega, by omega, by omega, h.1.symm, h.2.symm⟩

theorem decodeTail_four_valid (p0 lo hi : Nat) (rest : List UInt8) (r size : Nat)
    (h : decodeTail p0 4 lo hi rest = (r, size)) (hv : ¬ (r = RuneError ∧ size = 1)) :
    ∃ b1 b2 b3 t, rest = b1 :: b2 :: b3 :: t ∧ lo ≤ b1.toNat ∧ b1.toNat ≤ hi ∧
      0x80 ≤ b2.toNat ∧ b2.toNat ≤ 0xBF ∧ 0x80 ≤ b3.toNat ∧ b3.toNat ≤ 0xBF ∧
      r = p0 % 8 * 262144 + b1.toNat % 64 * 4096 + b2.toNat % 64 * 64 + b3.toNat % 64 ∧
      size = 4 := by
  rw [decodeTail_four] at h
  rcases rest with _ | ⟨b1, _ | ⟨b2, _ | ⟨b3, t⟩⟩⟩
  · simp only [Prod.mk.injEq] at h
    exact absurd ⟨h.1.symm, h.2.symm⟩ hv
  · simp only [Prod.mk.injEq] at h
    exact absurd ⟨h.1.symm, h.2.symm⟩ hv
  · simp only [Prod.mk.injEq] at h
    exact absurd ⟨h.1.symm, h.2.symm⟩ hv
  · simp only at h
    split_ifs at h with hb1 hb2 hb3
    · simp only [Prod.mk.injEq] at h
      exact absurd ⟨h.1.symm, h.2.symm⟩ hv
    · simp only [Prod.mk.injEq] at h
      exact absurd ⟨h.1.symm, h.2.symm⟩ hv
    · simp only [Prod.mk.injEq] at h
      exact absurd ⟨h.1.symm, h.2.symm⟩ hv
    · simp only [Prod.mk.injEq] at h
      exact ⟨b1, b2, b3, t, rfl, by omega, by omega, by omega, by omega, by omega, by omega,
        h.1.symm, h.2.symm⟩

theorem DecodeRune_cons (p0 : UInt8) (rest : List UInt8) :
    DecodeRune (p0 :: rest) =
      if first p0.toNat ≥ 0xF0 then
        (if first p0.toNat = 0xF0 then p0.toNat else RuneError, 1)
      else
        decodeTail p0.toNat (first p0.toNat % 8) (acceptRanges (first p0.toNat / 16)).1
          (acceptRanges (first p0.toNat / 16)).2 rest := rfl

theorem DecodeRune_isEncoding (p0 : UInt8) (rest : List UInt8) (r size : Nat)
    (hd : DecodeRune (p0 :: rest) = (r, size)) (hv : ¬ (r = RuneError ∧ size = 1)) :
    IsEncoding p0 rest r size := by
  have h0 := toNat_lt p0
  rw [DecodeRune_cons] at hd
  by_cases c1 : p0.toNat < 0x80
  · rw [first_ascii _ c1] at hd
    simp only [ge_iff_le, le_refl, if_true, Prod.mk.injEq] at hd
    exact Or.inl ⟨hd.2.symm, c1, hd.1.symm⟩
  by_cases c2 : p0.toNat < 0xC2 ∨ 0xF5 ≤ p0.toNat
  · rw [first_invalid _ (by omega) c2] at hd
    norm_num at hd
    exact absurd ⟨hd.1.symm, hd.2.symm⟩ hv
  by_cases c3 : p0.toNat < 0xE0
  · rw [first_two _ (by omega) c3] at hd
    norm_num [acceptRanges] at hd
    obtain ⟨b1, t, rfl, h1, h2, hr, hs⟩ := decodeTail_two_valid _ _ _ _ _ _ hd hv
    exact Or.inr (Or.inl ⟨hs, b1, t, rfl, by omega, c3, h1, h2, hr⟩)
  by_cases c4 : p0.toNat = 0xE0
  · rw [c4] at hd
    norm_num [first, acceptRanges] at hd
    obtain ⟨b1, b2, t, rfl, h1, h2, h3, h4, hr, hs⟩ := decodeTail_three_valid _ _ _ _ _ _ hd hv
    exact Or.inr (Or.inr (Or.inl ⟨hs, b1, b2, t, rfl, by omega, by omega, fun _ => h1,
      fun _ => by omega, by omega, h2, h3, h4, by rw [c4]; exact hr⟩))
  by_cases c5 : p0.toNat = 0xED
  · rw [c5] at hd
    norm_num [first, acceptRanges] at hd
    obtain ⟨b1, b2, t, rfl, h1, h2, h3, h4, hr, hs⟩ := decodeTail_three_valid _ _ _ _ _ _ hd hv
    exact Or.inr (Or.inr (Or.inl ⟨hs, b1, b2, t, rfl, by omega, by omega, fun _ => by omega,
      fun _ => h2, h1, by omega, h3, h4, by rw [c5]; exact hr⟩))
  by_cases c6 : p0.toNat < 0xF0
  · rw [first_three _ (by omega) c6 c5] at hd
    norm_num [acceptRanges] at hd
    obtain ⟨b1, b2, t, rfl, h1, h2, h3, h4, hr, hs⟩ := decodeTail_three_valid _ _ _ _ _ _ hd hv
    exact Or.inr (Or.inr (Or.inl ⟨hs, b1, b2, t, rfl, by omega, by omega, fun h => absurd h c4,
      fun h => absurd h c5, h1, h2, h3, h4, hr⟩))
  by_cases c7 : p0.toNat = 0xF0
  · rw [c7] at hd
    norm_num [first, acceptRanges] at hd
    obtain ⟨b1, b2, b3, t, rfl, h1, h2, h3, h4, h5, h6, hr, hs⟩ :=
      decodeTail_four_valid _ _ _ _ _ _ hd hv
    exact Or.inr (Or.inr (Or.inr ⟨hs, b1, b2, b3, t, rfl, by omega, by omega, fun _ => h1,
      fun _ => by omega, by omega, h2, h3, h4, h5, h6, by rw [c7]; exact hr⟩))
  by_cases c8 : p0.toNat = 0xF4
  · rw [c8] at hd
    norm_num [first, acceptRanges] at hd
    obtain ⟨b1, b2, b3, t, rfl, h1, h2, h3, h4, h5, h6, hr, hs⟩ :=
      decodeTail_four_valid _ _ _ _ _ _ hd hv
    exact Or.inr (Or.inr (Or.inr ⟨hs, b1, b2, b3, t, rfl, by omega, by omega, fun _ => by omega,
      fun _ => h2, h1, by omega, h3, h4, h5, h6, by rw [c8]; exact hr⟩))
  · rw [first_four _ (by omega) (by omega)] at hd
    norm_num [acceptRanges] at hd
    obtain ⟨b1, b2, b3, t, rfl, h1, h2, h3, h4, h5, h6, hr, hs⟩ :=
      decodeTail_four_valid _ _ _ _ _ _ hd hv
    exact Or.inr (Or.inr (Or.inr ⟨hs, b1, b2, b3, t, rfl, by omega, by omega,
      fun h => absurd h c7, fun h => absurd h c8, h1, h2, h3, h4, h5, h6, hr⟩))


theorem IsEncoding_decode (p0 : UInt8) (rest : List UInt8) (r size : Nat)
    (h : IsEncoding p0 rest r size) : DecodeRune (p0 :: rest) = (r, size) := by
  have h0 := toNat_lt p0
  rw [DecodeRune_cons]
  rcases h with ⟨hs, c1, hr⟩ | ⟨hs, b1, t, rfl, c1, c2, h1, h2, hr⟩ |
    ⟨hs, b1, b2, t, rfl, c1, c2, e1, e2, h1, h2, h3, h4, hr⟩ |
    ⟨hs, b1, b2, b3, t, rfl, c1, c2, e1, e2, h1, h2, h3, h4, h5, h6, hr⟩
  · rw [first_ascii _ c1, hs, hr]
    simp
  · rw [first_two _ c1 c2, hs, hr]
    norm_num [acceptRanges, decodeTail_two]
    exact ⟨h1, h2⟩
  · by_cases c4 : p0.toNat = 0xE0
    · have := e1 c4
      rw [hs, hr, c4]
      norm_num [first, acceptRanges, decodeTail_three]
      rw [if_neg (by omega), if_neg (by omega)]
    by_cases c5 : p0.toNat = 0xED
    · have := e2 c5
      rw [hs, hr, c5]
      norm_num [first, acceptRanges, decodeTail_three]
      rw [if_neg (by omega), if_neg (by omega)]
    · rw [first_three _ (by omega) c2 c5, hs, hr]
      norm_num [acceptRanges, decodeTail_three]
      rw [if_neg (by omega), if_neg (by omega)]
  · by_cases c4 : p0.toNat = 0xF0
    · have := e1 c4
      rw [hs, hr, c4]
      norm_num [first, acceptRanges, decodeTail_four]
      rw [if_neg (by omega), if_neg (by omega), if_neg (by omega)]
    by_cases c5 : p0.toNat = 0xF4
    · have := e2 c5
      rw [hs, hr, c5]
      norm_num [first, acceptRanges, decodeTail_four]
      rw [if_neg (by omega), if_neg (by omega), if_neg (by omega)]
    · rw [first_four _ (by omega) (by omega), hs, hr]
      norm_num [acceptRanges, decodeTail_four]
      rw [if_neg (by omega), if_neg (by omega), if_neg (by omega)]

theorem IsEncoding_take_append (p0 : UInt8) (rest q : List UInt8) (r size : Nat)
    (h : IsEncoding p0 rest r size) : IsEncoding p0 (rest.take (size - 1) ++ q) r size := by
  rcases h with ⟨hs, c1, hr⟩ | ⟨hs, b1, t, rfl, h⟩ | ⟨hs, b1, b2, t, rfl, h⟩ |
    ⟨hs, b1, b2, b3, t, rfl, h⟩
  · exact Or.inl ⟨hs, c1, hr⟩
  · subst hs
    exact Or.inr (Or.inl ⟨rfl, b1, q, by simp, h⟩)
  · subst hs
    exact Or.inr (Or.inr (Or.inl ⟨rfl, b1, b2, q, by simp, h⟩))
  · subst hs
    exact Or.inr (Or.inr (Or.inr ⟨rfl, b1, b2, b3, q, by simp, h⟩))

theorem IsEncoding_encode (p0 : UInt8) (rest : List UInt8) (r size : Nat)
    (h : IsEncoding p0 rest r size) : EncodeRune r = (p0 :: rest).take size := by
  have h0 := toNat_lt p0
  rcases h with ⟨hs, c1, hr⟩ | ⟨hs, b1, t, rfl, c1, c2, h1, h2, hr⟩ |
    ⟨hs, b1, b2, t, rfl, c1, c2, e1, e2, h1, h2, h3, h4, hr⟩ |
    ⟨hs, b1, b2, b3, t, rfl, c1, c2, e1, e2, h1, h2, h3, h4, h5, h6, hr⟩
  · subst hs hr
    simp [EncodeRune, c1, ofNat_toNat]
  · subst hs
    unfold EncodeRune
    rw [if_neg (by omega), if_pos (by omega)]
    simp only [List.take_succ_cons, List.take_zero, List.cons.injEq, and_true]
    exact ⟨ofNat_eq_of_toNat_eq (by omega), ofNat_eq_of_toNat_eq (by omega)⟩
  · subst hs
    have g1 : p0.toNat = 0xE0 ∨ p0.toNat ≠ 0xE0 := by omega
    have g2 : p0.toNat = 0xED ∨ p0.toNat ≠ 0xED := by omega
    have k1 : 0x800 ≤ r := by
      rcases g1 with g | g
      · have := e1 g
        omega
      · omega
    have k2 : r < 0xD800 ∨ 0xDFFF < r := by
      rcases g2 with g | g
      · have := e2 g
        omega
      · omega
    unfold EncodeRune
    rw [if_neg (by omega), if_neg (by omega), if_neg (by omega), if_pos (by omega)]
    simp only [List.take_succ_cons, List.take_zero, List.cons.injEq, and_true]
    exact ⟨ofNat_eq_of_toNat_eq (by omega), ofNat_eq_of_toNat_eq (by omega),
      ofNat_eq_of_toNat_eq (by omega)⟩
  · subst hs
    have g1 : p0.toNat = 0xF0 ∨ p0.toNat ≠ 0xF0 := by omega
    have g2 : p0.toNat = 0xF4 ∨ p0.toNat ≠ 0xF4 := by omega
    have k1 : 0x10000 ≤ r := by
      rcases g1 with g | g
      · have := e1 g
        omega
      · omega
    have k2 : r ≤ 0x10FFFF := by
      rcases g2 with g | g
      · have := e2 g
        omega
      · omega
    unfold EncodeRune
    rw [if_neg (by omega), if_neg (by omega), if_neg (by omega), if_neg (by omega)]
    simp only [List.take_succ_cons, List.take_zero, List.cons.injEq, and_true]
    exact ⟨ofNat_eq_of_toNat_eq (by omega), ofNat_eq_of_toNat_eq (by omega),
      ofNat_eq_of_toNat_eq (by omega), ofNat_eq_of_toNat_eq (by omega)⟩

end utf8

/-! ## JSON: the encoder and the decoder are inverse on valid UTF-8 -/

namespace json

theorem byte_ne_of_toNat_ne {a b : UInt8} (h : a.toNat ≠ b.toNat) : a ≠ b := by
  intro hab
  exact h (by rw [hab])

theorem scanString_plain (c : UInt8) (s : List UInt8) (h1 : c.toNat ≠ 0x22)
    (h2 : c.toNat ≠ 0x5C) (h3 : 0x20 ≤ c.toNat) :
    scanString (c :: s) = (scanString s).map fun r => (c :: r.1, r.2) := by
  have e1 : c ≠ 0x22 := byte_ne_of_toNat_ne h1
  have e2 : c ≠ 0x5C := byte_ne_of_toNat_ne h2
  have e3 : ¬ c.toNat < 0x20 := by omega
  conv_lhs => rw [scanString.eq_def]
  simp only [if_neg e1, if_neg e2, if_neg e3]

theorem scanString_plain_append (pre s : List UInt8) (h : ∀ c ∈ pre, 0x80 ≤ c.toNat) :
    scanString (pre ++ s) = (scanString s).map fun r => (pre ++ r.1, r.2) := by
  induction pre with
  | nil => simp
  | cons c pre ih =>
    have hc := h c (List.mem_cons_self _ _)
    rw [List.cons_append, scanString_plain c _ (by omega) (by omega) (by omega),
      ih (fun x hx => h x (List.mem_cons_of_mem _ hx))]
    cases scanString s <;> simp


theorem isHex_hex : ∀ n < 16, isHex (hex n) = true := by decide

theorem hexVal_hex : ∀ n < 16, hexVal (hex n) = some n := by decide

theorem scanString_escape (e : UInt8) (s : List UInt8)
    (he : e = 0x62 ∨ e = 0x66 ∨ e = 0x6E ∨ e = 0x72 ∨ e = 0x74 ∨ e = 0x5C ∨ e = 0x2F ∨ e = 0x22) :
    scanString (0x5C :: e :: s) = (scanString s).map fun r => (0x5C :: e :: r.1, r.2) := by
  have hu : e ≠ 0x75 := by
    rcases he with h | h | h | h | h | h | h | h <;> rw [h] <;> decide
  conv_lhs => rw [scanString.eq_def]
  simp only [if_neg hu, if_pos he]
  rfl

theorem scanString_escapeU (h1 h2 h3 h4 : UInt8) (s : List UInt8)
    (k1 : isHex h1 = true) (k2 : isHex h2 = true) (k3 : isHex h3 = true) (k4 : isHex h4 = true) :
    scanString (0x5C :: 0x75 :: h1 :: h2 :: h3 :: h4 :: s) =
      (scanString s).map fun r => (0x5C :: 0x75 :: h1 :: h2 :: h3 :: h4 :: r.1, r.2) := by
  conv_lhs => rw [scanString.eq_def]
  simp [k1, k2, k3, k4]

theorem scanString_escapeByte (b : UInt8) (s : List UInt8) :
    scanString (escapeByte b ++ s) = (scanString s).map fun r => (escapeByte b ++ r.1, r.2) := by
  have hb := toNat_lt b
  unfold escapeByte
  split_ifs with c1 c2 c3 c4
  · rcases c1 with c | c
    · subst c
      exact scanString_escape _ _ (by decide)
    · subst c
      exact scanString_escape _ _ (by decide)
  · exact scanString_escape _ _ (by decide)
  · exact scanString_escape _ _ (by decide)
  · exact scanString_escape _ _ (by decide)
  · exact scanString_escapeU _ _ _ _ _ (by decide) (by decide)
      (isHex_hex _ (by omega)) (isHex_hex _ (by omega))


theorem IsEncoding_take_high (p0 : UInt8) (rest : List UInt8) (r size : Nat)
    (h : utf8.IsEncoding p0 rest r size) (hp : 0x80 ≤ p0.toNat) :
    ∀ c ∈ (p0 :: rest).take size, 0x80 ≤ c.toNat := by
  rcases h with ⟨hs, c1, hr⟩ | ⟨hs, b1, t, rfl, c1, c2, h1, h2, hr⟩ |
    ⟨hs, b1, b2, t, rfl, c1, c2, e1, e2, h1, h2, h3, h4, hr⟩ |
    ⟨hs, b1, b2, b3, t, rfl, c1, c2, e1, e2, h1, h2, h3, h4, h5, h6, hr⟩
  · omega
  · subst hs
    intro c hc
    simp only [List.take_succ_cons, List.take_zero, List.mem_cons, List.mem_nil_iff,
      or_false] at hc
    rcases hc with rfl | rfl <;> assumption
  · subst hs
    intro c hc
    simp only [List.take_succ_cons, List.take_zero, List.mem_cons, List.mem_nil_iff,
      or_false] at hc
    rcases hc with rfl | rfl | rfl <;> assumption
  · subst hs
    intro c hc
    simp only [List.take_succ_cons, List.take_zero, List.mem_cons, List.mem_nil_iff,
      or_false] at hc
    rcases hc with rfl | rfl | rfl | rfl <;> assumption

theorem scanString_quote (tail : List UInt8) : scanString (0x22 :: tail) = some ([], tail) := by
  rw [scanString.eq_def]
  simp

theorem appendStringBody_cons (fuel : Nat) (b : UInt8) (rest : List UInt8) :
    appendStringBody (fuel + 1) (b :: rest) =
      if b.toNat < 0x80 then
        (if htmlSafeSet b.toNat then [b] else escapeByte b) ++ appendStringBody fuel rest
      else if (utf8.DecodeRune (b :: rest)).1 = utf8.RuneError ∧
          (utf8.DecodeRune (b :: rest)).2 = 1 then
        [0x5C, 0x75, 0x66, 0x66, 0x66, 0x64] ++ appendStringBody fuel rest
      else if (utf8.DecodeRune (b :: rest)).1 = 0x2028 ∨
          (utf8.DecodeRune (b :: rest)).1 = 0x2029 then
        [0x5C, 0x75, 0x32, 0x30, 0x32, hex ((utf8.DecodeRune (b :: rest)).1 % 16)]
          ++ appendStringBody fuel (rest.drop ((utf8.DecodeRune (b :: rest)).2 - 1))
      else
        (b :: rest).take (utf8.DecodeRune (b :: rest)).2
          ++ appendStringBody fuel (rest.drop ((utf8.DecodeRune (b :: rest)).2 - 1)) := rfl

theorem scanString_appendStringBody (fuel : Nat) (src tail : List UInt8) :
    scanString (appendStringBody fuel src ++ 0x22 :: tail) =
      some (appendStringBody fuel src, tail) := by
  induction fuel generalizing src with
  | zero =>
    cases src <;> simp [appendStringBody, scanString_quote]
  | succ fuel ih =>
    rcases src with _ | ⟨b, rest⟩
    · simp [appendStringBody, scanString_quote]
    · rw [appendStringBody_cons]
      split_ifs with c1 c2 c3 c4
      · -- an ASCII byte written as it is
        simp only [htmlSafeSet, decide_eq_true_eq] at c2
        rw [List.singleton_append, List.cons_append,
          scanString_plain b _ (by omega) (by omega) (by omega), ih]
        rfl
      · rw [List.append_assoc, scanString_escapeByte, ih]
        rfl
      · rw [List.append_assoc]
        have := scanString_escapeU 0x66 0x66 0x66 0x64 (appendStringBody fuel rest ++ 0x22 :: tail)
          (by decide) (by decide) (by decide) (by decide)
        simp only [List.cons_append, List.nil_append]
        rw [this, ih]
        rfl
      · rw [List.append_assoc]
        have := scanString_escapeU 0x32 0x30 0x32 (hex ((utf8.DecodeRune (b :: rest)).1 % 16))
          (appendStringBody fuel (rest.drop ((utf8.DecodeRune (b :: rest)).2 - 1)) ++ 0x22 :: tail)
          (by decide) (by decide) (by decide) (isHex_hex _ (by omega))
        simp only [List.cons_append, List.nil_append]
        rw [this, ih]
        rfl
      · have henc : utf8.IsEncoding b rest (utf8.DecodeRune (b :: rest)).1
            (utf8.DecodeRune (b :: rest)).2 := utf8.DecodeRune_isEncoding b rest _ _ rfl c3
        rw [List.append_assoc, scanString_plain_append _ _
          (IsEncoding_take_high b rest _ _ henc (by omega)), ih]
        rfl


theorem unquoteBody_cons (fuel : Nat) (c : UInt8) (rest : List UInt8) :
    unquoteBody (fuel + 1) (c :: rest) = unquoteStep (unquoteBody fuel) c rest := rfl

theorem unquoteBody_plain (fuel : Nat) (c : UInt8) (rest : List UInt8)
    (h1 : c.toNat ≠ 0x5C) (h2 : c.toNat ≠ 0x22) (h3 : 0x20 ≤ c.toNat) (h4 : c.toNat < 0x80) :
    unquoteBody (fuel + 1) (c :: rest) = (unquoteBody fuel rest).map fun t => c :: t := by
  have e1 : c ≠ 0x5C := byte_ne_of_toNat_ne h1
  have e2 : ¬ (c = 0x22 ∨ c.toNat < 0x20) := by
    rintro (h | h)
    · exact byte_ne_of_toNat_ne h2 h
    · omega
  rw [unquoteBody_cons, unquoteStep.eq_def, if_neg e1, if_neg e2, if_pos h4]

theorem unquoteBody_multibyte (fuel : Nat) (c : UInt8) (rest : List UInt8) (h : 0x80 ≤ c.toNat) :
    unquoteBody (fuel + 1) (c :: rest) =
      (unquoteBody fuel (rest.drop ((utf8.DecodeRune (c :: rest)).2 - 1))).map
        fun t => utf8.EncodeRune (utf8.DecodeRune (c :: rest)).1 ++ t := by
  have e1 : c ≠ 0x5C := byte_ne_of_toNat_ne (by
    have : (0x5C : UInt8).toNat = 0x5C := rfl
    omega)
  have e2 : ¬ (c = 0x22 ∨ c.toNat < 0x20) := by
    rintro (h' | h')
    · rw [h'] at h
      exact absurd h (by decide)
    · omega
  rw [unquoteBody_cons, unquoteStep.eq_def, if_neg e1, if_neg e2, if_neg (by omega)]

theorem unquoteBody_escapeU (fuel : Nat) (h1 h2 h3 h4 : UInt8) (a b c d : Nat)
    (rest : List UInt8) (k1 : hexVal h1 = some a) (k2 : hexVal h2 = some b)
    (k3 : hexVal h3 = some c) (k4 : hexVal h4 = some d)
    (hs : utf16.IsSurrogate (a * 4096 + b * 256 + c * 16 + d) = false) :
    unquoteBody (fuel + 1) (0x5C :: 0x75 :: h1 :: h2 :: h3 :: h4 :: rest) =
      (unquoteBody fuel rest).map
        fun t => utf8.EncodeRune (a * 4096 + b * 256 + c * 16 + d) ++ t := by
  rw [unquoteBody_cons, unquoteStep]
  simp [getu4, k1, k2, k3, k4, hs]

theorem unquoteBody_escapeByte (fuel : Nat) (b : UInt8) (rest : List UInt8)
    (hb : b.toNat < 0x80) :
    unquoteBody (fuel + 1) (escapeByte b ++ rest) = (unquoteBody fuel rest).map fun t => b :: t := by
  unfold escapeByte
  split_ifs with c1 c2 c3 c4
  · rcases c1 with c | c <;> subst c <;>
      rw [List.cons_append, List.cons_append, unquoteBody_cons, unquoteStep] <;> simp
  · subst c2
    rw [List.cons_append, List.cons_append, unquoteBody_cons, unquoteStep]
    simp
  · subst c3
    rw [List.cons_append, List.cons_append, unquoteBody_cons, unquoteStep]
    simp
  · subst c4
    rw [List.cons_append, List.cons_append, unquoteBody_cons, unquoteStep]
    simp
  · have := unquoteBody_escapeU fuel 0x30 0x30 (hex (b.toNat / 16)) (hex (b.toNat % 16)) 0 0
      (b.toNat / 16) (b.toNat % 16) rest (by decide) (by decide) (hexVal_hex _ (by omega))
      (hexVal_hex _ (by omega)) (by simp [utf16.IsSurrogate]; omega)
    simp only [List.cons_append, List.nil_append]
    rw [this]
    have hr : 0 * 4096 + 0 * 256 + b.toNat / 16 * 16 + b.toNat % 16 = b.toNat := by omega
    rw [hr]
    have : utf8.EncodeRune b.toNat = [b] := by
      simp [utf8.EncodeRune, hb, ofNat_toNat]
    rw [this]
    rfl


theorem IsEncoding_size (p0 : UInt8) (rest : List UInt8) (r size : Nat)
    (h : utf8.IsEncoding p0 rest r size) : 1 ≤ size ∧ size - 1 ≤ rest.length := by
  rcases h with ⟨hs, _⟩ | ⟨hs, b1, t, rfl, _⟩ | ⟨hs, b1, b2, t, rfl, _⟩ |
    ⟨hs, b1, b2, b3, t, rfl, _⟩ <;> subst hs <;> simp

theorem take_append_drop_pred (b : UInt8) (rest : List UInt8) (n : Nat) (h : 1 ≤ n) :
    (b :: rest).take n ++ rest.drop (n - 1) = b :: rest := by
  obtain ⟨m, rfl⟩ : ∃ m, n = m + 1 := ⟨n - 1, by omega⟩
  simp

theorem DecodeRune_ascii (b : UInt8) (rest : List UInt8) (h : b.toNat < 0x80) :
    utf8.DecodeRune (b :: rest) = (b.toNat, 1) :=
  utf8.IsEncoding_decode b rest _ _ (Or.inl ⟨rfl, h, rfl⟩)

theorem unquoteBody_nil (F : Nat) : unquoteBody F [] = some [] := by
  cases F <;> rfl

theorem validAux_cons (fuel : Nat) (b : UInt8) (rest : List UInt8) :
    utf8.validAux (fuel + 1) (b :: rest) =
      if (utf8.DecodeRune (b :: rest)).1 = utf8.RuneError ∧ (utf8.DecodeRune (b :: rest)).2 = 1
      then false
      else utf8.validAux fuel (rest.drop ((utf8.DecodeRune (b :: rest)).2 - 1)) := rfl

theorem unquoteBody_appendStringBody (fuel : Nat) :
    ∀ (src : List UInt8) (F : Nat), src.length ≤ fuel → utf8.validAux fuel src = true →
      (appendStringBody fuel src).length ≤ F →
      unquoteBody F (appendStringBody fuel src) = some src := by
  induction fuel with
  | zero =>
    intro src F hl _ _
    have : src = [] := List.length_eq_zero.mp (by omega)
    subst this
    exact unquoteBody_nil F
  | succ fuel ih =>
    intro src F hl hv hF
    rcases src with _ | ⟨b, rest⟩
    · exact unquoteBody_nil F
    · rw [validAux_cons] at hv
      rw [appendStringBody_cons] at hF ⊢
      simp only [List.length_cons] at hl
      by_cases c1 : b.toNat < 0x80
      · rw [DecodeRune_ascii b rest c1] at hv
        simp only [utf8.RuneError, and_true, Nat.sub_self, List.drop_zero] at hv
        have hv' : utf8.validAux fuel rest = true := by
          split_ifs at hv
          exact hv
        rw [if_pos c1] at hF ⊢
        by_cases c2 : htmlSafeSet b.toNat = true
        · rw [if_pos c2] at hF ⊢
          simp only [List.singleton_append, List.length_cons] at hF ⊢
          obtain ⟨F', rfl⟩ : ∃ F', F = F' + 1 := ⟨F - 1, by omega⟩
          simp only [htmlSafeSet, decide_eq_true_eq] at c2
          rw [unquoteBody_plain _ _ _ (by omega) (by omega) (by omega) (by omega),
            ih rest F' (by omega) hv' (by omega)]
          rfl
        · rw [if_neg c2] at hF ⊢
          have hlen : 1 ≤ (escapeByte b).length := by
            unfold escapeByte
            split_ifs <;> simp
          simp only [List.length_append] at hF
          obtain ⟨F', rfl⟩ : ∃ F', F = F' + 1 := ⟨F - 1, by omega⟩
          rw [unquoteBody_escapeByte _ _ _ c1, ih rest F' (by omega) hv' (by omega)]
          rfl
      · rw [if_neg c1] at hF ⊢
        by_cases c3 : (utf8.DecodeRune (b :: rest)).1 = utf8.RuneError ∧
            (utf8.DecodeRune (b :: rest)).2 = 1
        · rw [if_pos c3] at hv
          exact absurd hv (by decide)
        · rw [if_neg c3] at hv hF ⊢
          have henc : utf8.IsEncoding b rest (utf8.DecodeRune (b :: rest)).1
              (utf8.DecodeRune (b :: rest)).2 := utf8.DecodeRune_isEncoding b rest _ _ rfl c3
          obtain ⟨hs1, hs2⟩ := IsEncoding_size _ _ _ _ henc
          have hdrop : (rest.drop ((utf8.DecodeRune (b :: rest)).2 - 1)).length ≤ fuel := by
            rw [List.length_drop]
            omega
          by_cases c4 : (utf8.DecodeRune (b :: rest)).1 = 0x2028 ∨
              (utf8.DecodeRune (b :: rest)).1 = 0x2029
          · rw [if_pos c4] at hF ⊢
            simp only [List.cons_append, List.nil_append, List.length_cons] at hF ⊢
            obtain ⟨F', rfl⟩ : ∃ F', F = F' + 1 := ⟨F - 1, by omega⟩
            rw [unquoteBody_escapeU F' 0x32 0x30 0x32 (hex ((utf8.DecodeRune (b :: rest)).1 % 16))
              2 0 2 ((utf8.DecodeRune (b :: rest)).1 % 16) _ (by decide) (by decide) (by decide)
              (hexVal_hex _ (by omega)) (by simp [utf16.IsSurrogate]; omega),
              ih _ F' hdrop hv (by omega)]
            have hr : 2 * 4096 + 0 * 256 + 2 * 16 + (utf8.DecodeRune (b :: rest)).1 % 16 =
                (utf8.DecodeRune (b :: rest)).1 := by omega
            rw [hr, utf8.IsEncoding_encode _ _ _ _ henc]
            simp only [Option.map_some']
            rw [take_append_drop_pred _ _ _ hs1]
          · rw [if_neg c4] at hF ⊢
            obtain ⟨m, hm⟩ : ∃ m, (utf8.DecodeRune (b :: rest)).2 = m + 1 :=
              ⟨(utf8.DecodeRune (b :: rest)).2 - 1, by omega⟩
            have henc2 := utf8.IsEncoding_decode _ _ _ _
              (utf8.IsEncoding_take_append b rest
                (appendStringBody fuel (rest.drop ((utf8.DecodeRune (b :: rest)).2 - 1))) _ _ henc)
            rw [hm] at henc2 hF hs2 hv ⊢
            simp only [List.take_succ_cons, List.cons_append, List.length_cons,
              Nat.add_sub_cancel] at hF henc2 hs2 hv ⊢
            obtain ⟨F', rfl⟩ : ∃ F', F = F' + 1 := ⟨F - 1, by omega⟩
            rw [unquoteBody_multibyte _ _ _ (by omega), henc2]
            simp only [Nat.add_sub_cancel]
            have hd : List.drop m (List.take m rest ++ appendStringBody fuel (List.drop m rest)) =
                appendStringBody fuel (List.drop m rest) := by
              rw [List.drop_append_of_le_length (by rw [List.length_take]; omega)]
              rw [List.drop_eq_nil_of_le (by rw [List.length_take]; omega)]
              rfl
            rw [hd, ih _ F' (by rw [List.length_drop]; omega) hv
              (by simp only [List.length_append] at hF; omega)]
            have := utf8.IsEncoding_encode _ _ _ _ henc
            rw [hm] at this
            rw [this]
            simp only [Option.map_some', List.take_succ_cons, List.cons_append,
              List.take_append_drop]


theorem scanString_key (s : List UInt8) :
    scanString (0x6E :: 0x61 :: 0x6D :: 0x65 :: 0x22 :: s) = some ([0x6E, 0x61, 0x6D, 0x65], s) := by
  rw [scanString_plain _ _ (by decide) (by decide) (by decide),
    scanString_plain _ _ (by decide) (by decide) (by decide),
    scanString_plain _ _ (by decide) (by decide) (by decide),
    scanString_plain _ _ (by decide) (by decide) (by decide), scanString_quote]
  rfl

theorem scanObject_name (f : Nat) (body tail : List UInt8)
    (hscan : scanString (body ++ 0x22 :: 0x7D :: tail) = some (body, 0x7D :: tail)) :
    scanObject (f + 3) 1
        (0x22 :: 0x6E :: 0x61 :: 0x6D :: 0x65 :: 0x22 :: 0x3A :: 0x22 ::
          (body ++ 0x22 :: 0x7D :: tail)) =
      some ([([0x6E, 0x61, 0x6D, 0x65], Tok.string body)], tail) := by
  simp [scanObject, scanMembers, scanValue, skipSpace, isSpace, scanString_key, hscan]

theorem marshalName_eq (name : GoString) (h : name ≠ []) :
    marshalName name =
      0x7B :: 0x22 :: 0x6E :: 0x61 :: 0x6D :: 0x65 :: 0x22 :: 0x3A :: 0x22 ::
        (appendStringBody name.length name ++ 0x22 :: 0x7D :: []) := by
  have hn : appendString (lit "name") = [0x22, 0x6E, 0x61, 0x6D, 0x65, 0x22] := by decide
  rw [marshalName, if_neg h, hn, appendString]
  simp

theorem scanTop_marshalName (name : GoString) (h : name ≠ []) :
    scanTop (marshalName name) =
      some (Tok.object, [([0x6E, 0x61, 0x6D, 0x65],
        Tok.string (appendStringBody name.length name))]) := by
  rw [marshalName_eq name h]
  unfold scanTop
  simp only [List.length_cons]
  obtain ⟨f, hf⟩ : ∃ f, 3 * ((appendStringBody name.length name ++ [0x22, 0x7D]).length + 1 + 1
      + 1 + 1 + 1 + 1 + 1 + 1 + 1) + 3 = f + 3 := ⟨_, rfl⟩
  rw [hf]
  have hs : skipSpace (0x7B :: 0x22 :: 0x6E :: 0x61 :: 0x6D :: 0x65 :: 0x22 :: 0x3A :: 0x22 ::
      (appendStringBody name.length name ++ [0x22, 0x7D])) =
      0x7B :: 0x22 :: 0x6E :: 0x61 :: 0x6D :: 0x65 :: 0x22 :: 0x3A :: 0x22 ::
      (appendStringBody name.length name ++ [0x22, 0x7D]) := by
    simp [skipSpace, isSpace]
  rw [hs]
  simp only [if_true]
  rw [scanObject_name f _ [] (scanString_appendStringBody _ _ _)]
  simp [skipSpace]

theorem unmarshalName_marshalName (name init : GoString) (hv : utf8.Valid name = true)
    (h : name ≠ []) : unmarshalName (marshalName name) init = (name, none) := by
  have hk : unquote [0x6E, 0x61, 0x6D, 0x65] = some (lit "name") := by decide
  have hn : keyIsName (lit "name") = true := by decide
  have hb : unquote (appendStringBody name.length name) = some name :=
    unquoteBody_appendStringBody name.length name _ (le_refl _) hv (le_refl _)
  rw [unmarshalName, scanTop_marshalName name h]
  simp only [List.foldl_cons, List.foldl_nil, decodeMember, hk, hn, if_true, hb]

theorem unmarshalName_empty_object (init : GoString) :
    unmarshalName [0x7B, 0x7D] init = (init, none) := by
  have : scanTop [0x7B, 0x7D] = some (Tok.object, []) := by decide
  rw [unmarshalName, this]
  rfl

end json

/-! ## The organization event catalog -/

namespace org

open eventstore

theorem foldl_append_singleton {α β : Type} (f : α → β) (l : List α) (init : List β) :
    l.foldl (fun cs x => cs ++ [f x]) init = init ++ l.map f := by
  induction l generalizing init with
  | nil => simp
  | cons a l ih => simp [ih]

theorem removed_constraints_eq (k : ConstraintKeys) (e : OrgRemovedEvent) :
    e.UniqueConstraints k =
      [NewRemoveOrgNameUniqueConstraint e.name]
        ++ e.usernames.map (fun name => user.NewRemoveUsernameUniqueConstraint k name
            e.BaseEvent.Aggregate.ID e.loginMustBeDomain)
        ++ e.domains.map (fun dom => NewRemoveOrgDomainUniqueConstraint k dom)
        ++ e.externalIDPs.map (fun idp => user.NewRemoveUserIDPLinkUniqueConstraint k
            idp.IDPConfigID idp.ExternalUserID)
        ++ e.samlEntityIDs.map
            (fun entityID => project.NewRemoveSAMLConfigEntityIDUniqueConstraint k entityID) := by
  simp only [OrgRemovedEvent.UniqueConstraints, foldl_append_singleton]

theorem mapper_failure (event : repository.Event)
    (h : (json.unmarshalName event.Data []).2 ≠ none) :
    ∃ err, (json.unmarshalName event.Data []).2 = some err ∧
      OrgAddedEventMapper event = (none, some (errors.ThrowInternal (some err) (lit "ORG-Bren2")
        (lit "unable to unmarshal org added"))) ∧
      OrgChangedEventMapper event = (none, some (errors.ThrowInternal (some err)
        (lit "ORG-Bren2") (lit "unable to unmarshal org added"))) := by
  cases hr : (json.unmarshalName event.Data []).2 with
  | none => exact absurd hr h
  | some err =>
    refine ⟨err, rfl, ?_, ?_⟩
    · simp only [OrgAddedEventMapper, unmarshalOrgAdded, hr]
    · simp only [OrgChangedEventMapper, unmarshalOrgChanged, hr]

theorem mapper_success (event : repository.Event)
    (h : (json.unmarshalName event.Data []).2 = none) :
    OrgAddedEventMapper event =
      (some (.orgAdded
        { BaseEvent := BaseEventFromRepo event
          Name := (json.unmarshalName event.Data []).1 }), none) ∧
    OrgChangedEventMapper event =
      (some (.orgChanged
        { BaseEvent := BaseEventFromRepo event
          Name := (json.unmarshalName event.Data []).1
          oldName := [] }), none) := by
  constructor
  · simp only [OrgAddedEventMapper, unmarshalOrgAdded, h]
  · simp only [OrgChangedEventMapper, unmarshalOrgChanged, h]

/-- C1: for every old name and new name, the constraint declarations of the
event built by `NewOrgChangedEvent` are exactly two: first the REMOVE of the
old name in the namespace `org_name`, then the ADD of the new name in the same
namespace. -/
theorem changed_event_constraints (ctx : Context) (aggregate : Aggregate)
    (oldName newName : GoString) :
    (NewOrgChangedEvent ctx aggregate oldName newName).UniqueConstraints =
      [ { UniqueType := lit "org_name"
          UniqueField := oldName
          Action := .UniqueConstraintRemove
          ErrorMessage := [] },
        { UniqueType := lit "org_name"
          UniqueField := newName
          Action := .UniqueConstraintAdd
          ErrorMessage := lit "Errors.Org.AlreadyExists" } ] := rfl

/-- C2: the constraint declarations of the event built by `NewOrgRemovedEvent`
number one more than the usernames, domains, external IDP links and SAML
entity IDs together, and every one of them is a REMOVE; for two usernames, one
domain, one IDP link and one SAML entity ID there are six. -/
theorem removed_event_constraints_count (k : ConstraintKeys) (ctx : Context)
    (aggregate : Aggregate) (name : GoString) (usernames : List GoString)
    (loginMustBeDomain : Bool) (domains : List GoString)
    (externalIDPs : List domain.UserIDPLink) (samlEntityIDs : List GoString) :
    ((NewOrgRemovedEvent ctx aggregate name usernames loginMustBeDomain domains externalIDPs
        samlEntityIDs).UniqueConstraints k).length =
      1 + usernames.length + domains.length + externalIDPs.length + samlEntityIDs.length ∧
    (∀ c ∈ (NewOrgRemovedEvent ctx aggregate name usernames loginMustBeDomain domains
        externalIDPs samlEntityIDs).UniqueConstraints k, c.Action = .UniqueConstraintRemove) ∧
    (∀ (dom : GoString) (idp : domain.UserIDPLink) (entityID : GoString),
      ((NewOrgRemovedEvent ctx aggregate name [lit "alice", lit "bob"] loginMustBeDomain [dom]
        [idp] [entityID]).UniqueConstraints k).length = 6) := by
  refine ⟨?_, ?_, ?_⟩
  · rw [removed_constraints_eq]
    simp [NewOrgRemovedEvent]
    omega
  · intro c hc
    rw [removed_constraints_eq] at hc
    simp only [List.mem_append, List.mem_singleton, List.mem_map] at hc
    rcases hc with (((rfl | ⟨_, _, rfl⟩) | ⟨_, _, rfl⟩) | ⟨_, _, rfl⟩) | ⟨_, _, rfl⟩ <;> rfl
  · intro dom idp entityID
    rw [removed_constraints_eq]
    rfl

/-- C3: for every name, the constraint declarations of the event built by
`NewOrgAddedEvent` are exactly one: the ADD, in the namespace `org_name`, of
the name, with the error-message key `Errors.Org.AlreadyExists`. -/
theorem added_event_constraints (ctx : Context) (aggregate : Aggregate) (name : GoString) :
    (NewOrgAddedEvent ctx aggregate name).UniqueConstraints =
      [ { UniqueType := lit "org_name"
          UniqueField := name
          Action := .UniqueConstraintAdd
          ErrorMessage := lit "Errors.Org.AlreadyExists" } ] := rfl

/-- C4: on a constraint table that holds the old name and not the new one (the
two names are then distinct), the declarations of a changed event, applied in
list order, all succeed and leave a table that holds the new name and not the
old one; no state reached on the way holds both names, and the final state
holds one of them. -/
theorem changed_event_rename_table (ctx : Context) (aggregate : Aggregate)
    (oldName newName : GoString) (t : ConstraintTable)
    (hold : claimed t uniqueOrgname oldName = true)
    (hnew : claimed t uniqueOrgname newName = false) :
    ∃ t2, applyConstraints t (NewOrgChangedEvent ctx aggregate oldName newName).UniqueConstraints
        = .ok t2 ∧
      (reachedStates t
        (NewOrgChangedEvent ctx aggregate oldName newName).UniqueConstraints).getLast? = some t2 ∧
      claimed t2 uniqueOrgname newName = true ∧
      claimed t2 uniqueOrgname oldName = false ∧
      (∀ s ∈ reachedStates t (NewOrgChangedEvent ctx aggregate oldName newName).UniqueConstraints,
        ¬ (claimed s uniqueOrgname oldName = true ∧ claimed s uniqueOrgname newName = true)) ∧
      (claimed t2 uniqueOrgname oldName || claimed t2 uniqueOrgname newName) = true := by
  have hne : oldName ≠ newName := by
    rintro rfl
    rw [hold] at hnew
    exact absurd hnew (by decide)
  simp only [claimed, decide_eq_true_eq, decide_eq_false_iff_not] at hold hnew
  refine ⟨(uniqueOrgname, newName) ::
    t.filter (fun p => decide (p ≠ (uniqueOrgname, oldName))), ?_, ?_, ?_, ?_, ?_, ?_⟩
  · simp [NewOrgChangedEvent, OrgChangedEvent.UniqueConstraints, applyConstraints,
      applyConstraint, NewRemoveOrgNameUniqueConstraint, NewAddOrgNameUniqueConstraint,
      NewRemoveEventUniqueConstraint, NewAddEventUniqueConstraint, claimed, List.mem_filter, hnew]
  · simp [NewOrgChangedEvent, OrgChangedEvent.UniqueConstraints, reachedStates,
      applyConstraint, NewRemoveOrgNameUniqueConstraint, NewAddOrgNameUniqueConstraint,
      NewRemoveEventUniqueConstraint, NewAddEventUniqueConstraint, claimed, List.mem_filter, hnew]
  · simp [claimed]
  · simp [claimed, List.mem_filter, hne]
  · intro s hs
    simp [NewOrgChangedEvent, OrgChangedEvent.UniqueConstraints, reachedStates,
      applyConstraint, NewRemoveOrgNameUniqueConstraint, NewAddOrgNameUniqueConstraint,
      NewRemoveEventUniqueConstraint, NewAddEventUniqueConstraint, claimed, List.mem_filter,
      hnew] at hs
    rcases hs with rfl | rfl | rfl
    · simp [claimed, hnew]
    · simp [claimed, List.mem_filter]
    · simp [claimed, List.mem_filter, hne]
  · simp [claimed]

/-- C4, at a table that holds the name "Acme" only, renamed to "Acme2". -/
theorem changed_event_rename_table_witness :
    claimed [(uniqueOrgname, lit "Acme")] uniqueOrgname (lit "Acme") = true ∧
    claimed [(uniqueOrgname, lit "Acme")] uniqueOrgname (lit "Acme2") = false ∧
    ∃ t2, applyConstraints [(uniqueOrgname, lit "Acme")]
        (NewOrgChangedEvent ⟨[], []⟩ ⟨[], [], [], [], []⟩ (lit "Acme")
          (lit "Acme2")).UniqueConstraints = .ok t2 ∧
      (reachedStates [(uniqueOrgname, lit "Acme")]
        (NewOrgChangedEvent ⟨[], []⟩ ⟨[], [], [], [], []⟩ (lit "Acme")
          (lit "Acme2")).UniqueConstraints).getLast? = some t2 ∧
      claimed t2 uniqueOrgname (lit "Acme2") = true ∧
      claimed t2 uniqueOrgname (lit "Acme") = false ∧
      (∀ s ∈ reachedStates [(uniqueOrgname, lit "Acme")]
          (NewOrgChangedEvent ⟨[], []⟩ ⟨[], [], [], [], []⟩ (lit "Acme")
            (lit "Acme2")).UniqueConstraints,
        ¬ (claimed s uniqueOrgname (lit "Acme") = true ∧
          claimed s uniqueOrgname (lit "Acme2") = true)) ∧
      (claimed t2 uniqueOrgname (lit "Acme") || claimed t2 uniqueOrgname (lit "Acme2")) = true :=
  ⟨by decide, by decide,
    changed_event_rename_table ⟨[], []⟩ ⟨[], [], [], [], []⟩ (lit "Acme") (lit "Acme2")
      [(uniqueOrgname, lit "Acme")] (by decide) (by decide)⟩

/-- C5: a deactivated event and a reactivated event declare no constraints. -/
theorem deactivated_reactivated_no_constraints :
    (∀ e : OrgDeactivatedEvent, e.UniqueConstraints = []) ∧
    (∀ e : OrgReactivatedEvent, e.UniqueConstraints = []) :=
  ⟨fun _ => rfl, fun _ => rfl⟩

/-- C6: for every stored record whose bytes fail to unmarshal, the mappers of the
added and of the changed event return no event and an error of the Internal
kind whose diagnostic code is `ORG-Bren2`. -/
theorem mapper_unmarshal_failure_internal (event : repository.Event)
    (h : (json.unmarshalName event.Data []).2 ≠ none) :
    (∃ err, OrgAddedEventMapper event = (none, some err) ∧
      err.Kind = errors.ErrorKind.Internal ∧ err.ID = lit "ORG-Bren2") ∧
    (∃ err, OrgChangedEventMapper event = (none, some err) ∧
      err.Kind = errors.ErrorKind.Internal ∧ err.ID = lit "ORG-Bren2") := by
  obtain ⟨err, _, ha, hc⟩ := mapper_failure event h
  exact ⟨⟨_, ha, rfl, rfl⟩, ⟨_, hc, rfl, rfl⟩⟩

/-- C6, at a record that holds no bytes at all. -/
theorem mapper_unmarshal_failure_internal_witness :
    (json.unmarshalName (repository.Event.mk 1 [] [] [] [] [] [] [] [] []).Data []).2 ≠ none ∧
    (∃ err, OrgAddedEventMapper (repository.Event.mk 1 [] [] [] [] [] [] [] [] [])
        = (none, some err) ∧
      err.Kind = errors.ErrorKind.Internal ∧ err.ID = lit "ORG-Bren2") ∧
    (∃ err, OrgChangedEventMapper (repository.Event.mk 1 [] [] [] [] [] [] [] [] [])
        = (none, some err) ∧
      err.Kind = errors.ErrorKind.Internal ∧ err.ID = lit "ORG-Bren2") :=
  ⟨by decide,
    mapper_unmarshal_failure_internal (repository.Event.mk 1 [] [] [] [] [] [] [] [] [])
      (by decide)⟩

/-- C7 fails as stated, for each of the two kinds of mapper. The bytes of a lone
opening brace are not JSON of any shape, and the mapper of the deactivated
event returns an event and no error for a record that holds them. The JSON
value null, and the JSON object whose one member is named x and holds the
array of 1 and 2, are well-formed JSON that is not an object with a string
member named name; the mappers of the added and of the changed event return
an event with the empty name and no error for a record that holds either. -/
theorem mappers_accept_unexpected_bytes :
    (json.scanTop [0x7B] = none ∧
      (json.unmarshalName [0x7B] []).2 = some json.Error.SyntaxError ∧
      OrgDeactivatedEventMapper (repository.Event.mk 1 [] [0x7B] [] [] [] [] [] [] []) =
        (some (.orgDeactivated
          { BaseEvent :=
              BaseEventFromRepo (repository.Event.mk 1 [] [0x7B] [] [] [] [] [] [] []) }),
          none)) ∧
    (json.scanTop (lit "null") = some (json.Tok.null, []) ∧
      OrgAddedEventMapper (repository.Event.mk 1 [] (lit "null") [] [] [] [] [] [] []) =
        (some (.orgAdded
          { BaseEvent := BaseEventFromRepo
              (repository.Event.mk 1 [] (lit "null") [] [] [] [] [] [] [])
            Name := [] }), none) ∧
      OrgChangedEventMapper (repository.Event.mk 1 [] (lit "null") [] [] [] [] [] [] []) =
        (some (.orgChanged
          { BaseEvent := BaseEventFromRepo
              (repository.Event.mk 1 [] (lit "null") [] [] [] [] [] [] [])
            Name := []
            oldName := [] }), none)) ∧
    (json.scanTop [0x7B, 0x22, 0x78, 0x22, 0x3A, 0x5B, 0x31, 0x2C, 0x32, 0x5D, 0x7D] =
        some (json.Tok.object, [([0x78], json.Tok.array)]) ∧
      OrgAddedEventMapper (repository.Event.mk 1 []
          [0x7B, 0x22, 0x78, 0x22, 0x3A, 0x5B, 0x31, 0x2C, 0x32, 0x5D, 0x7D] [] [] [] [] [] [] []) =
        (some (.orgAdded
          { BaseEvent := BaseEventFromRepo (repository.Event.mk 1 []
              [0x7B, 0x22, 0x78, 0x22, 0x3A, 0x5B, 0x31, 0x2C, 0x32, 0x5D, 0x7D] [] [] [] [] [] [] [])
            Name := [] }), none) ∧
      OrgChangedEventMapper (repository.Event.mk 1 []
          [0x7B, 0x22, 0x78, 0x22, 0x3A, 0x5B, 0x31, 0x2C, 0x32, 0x5D, 0x7D] [] [] [] [] [] [] []) =
        (some (.orgChanged
          { BaseEvent := BaseEventFromRepo (repository.Event.mk 1 []
              [0x7B, 0x22, 0x78, 0x22, 0x3A, 0x5B, 0x31, 0x2C, 0x32, 0x5D, 0x7D] [] [] [] [] [] [] [])
            Name := []
            oldName := [] }), none)) :=
  ⟨⟨by decide, by decide, by decide⟩, ⟨by decide, by decide, by decide⟩,
    ⟨by decide, by decide, by decide⟩⟩

/-- C7, amended: the mappers of the added and of the changed event fail, with
an error of the Internal kind and no event, whenever `json.Unmarshal` of the
stored bytes returns an error, and only then: when it returns none they
return the event with the name it read and no error. The mappers of the
deactivated, reactivated and removed event do not read the bytes: for every
record they return the event built from the record and no error. -/
theorem mapper_failure_only_added_changed (event : repository.Event) :
    ((json.unmarshalName event.Data []).2 ≠ none →
      (∃ err, OrgAddedEventMapper event = (none, some err) ∧
        err.Kind = errors.ErrorKind.Internal) ∧
      (∃ err, OrgChangedEventMapper event = (none, some err) ∧
        err.Kind = errors.ErrorKind.Internal)) ∧
    ((json.unmarshalName event.Data []).2 = none →
      OrgAddedEventMapper event =
        (some (.orgAdded
          { BaseEvent := BaseEventFromRepo event
            Name := (json.unmarshalName event.Data []).1 }), none) ∧
      OrgChangedEventMapper event =
        (some (.orgChanged
          { BaseEvent := BaseEventFromRepo event
            Name := (json.unmarshalName event.Data []).1
            oldName := [] }), none)) ∧
    OrgDeactivatedEventMapper event =
      (some (.orgDeactivated { BaseEvent := BaseEventFromRepo event }), none) ∧
    OrgReactivatedEventMapper event =
      (some (.orgReactivated { BaseEvent := BaseEventFromRepo event }), none) ∧
    OrgRemovedEventMapper event =
      (some (.orgRemoved
        { BaseEvent := BaseEventFromRepo event
          name := []
          usernames := []
          loginMustBeDomain := false
          domains := []
          externalIDPs := []
          samlEntityIDs := [] }), none) := by
  refine ⟨fun h => ?_, mapper_success event, rfl, rfl, rfl⟩
  obtain ⟨err, _, ha, hc⟩ := mapper_failure event h
  exact ⟨⟨errors.ThrowInternal (some err) (lit "ORG-Bren2")
      (lit "unable to unmarshal org added"), ha, rfl⟩,
    ⟨errors.ThrowInternal (some err) (lit "ORG-Bren2") (lit "unable to unmarshal org added"),
      hc, rfl⟩⟩

/-- C7 as amended, at a record that holds a lone opening brace: `json.Unmarshal`
returns an error, the mappers of the added and of the changed event fail with
an Internal error, and the mapper of the deactivated event returns its
event. -/
theorem mapper_failure_only_added_changed_witness :
    (json.unmarshalName (repository.Event.mk 1 [] [0x7B] [] [] [] [] [] [] []).Data []).2
      ≠ none ∧
    ((∃ err, OrgAddedEventMapper (repository.Event.mk 1 [] [0x7B] [] [] [] [] [] [] [])
        = (none, some err) ∧ err.Kind = errors.ErrorKind.Internal) ∧
      (∃ err, OrgChangedEventMapper (repository.Event.mk 1 [] [0x7B] [] [] [] [] [] [] [])
        = (none, some err) ∧ err.Kind = errors.ErrorKind.Internal)) ∧
    OrgDeactivatedEventMapper (repository.Event.mk 1 [] [0x7B] [] [] [] [] [] [] []) =
      (some (.orgDeactivated
        { BaseEvent := BaseEventFromRepo (repository.Event.mk 1 [] [0x7B] [] [] [] [] [] [] []) }),
        none) :=
  ⟨by decide,
    (mapper_failure_only_added_changed
      (repository.Event.mk 1 [] [0x7B] [] [] [] [] [] [] [])).1 (by decide),
    (mapper_failure_only_added_changed
      (repository.Event.mk 1 [] [0x7B] [] [] [] [] [] [] [])).2.2.1⟩

/-- C8 does not hold of the code: `Payload` of a deactivated and of a reactivated
event returns the event itself, not nil, whereas `Payload` of a removed event,
the third event without business payload, returns nil. -/
theorem deactivated_reactivated_payload_not_nil (ctx : Context) (aggregate : Aggregate) :
    (NewOrgDeactivatedEvent ctx aggregate).Payload =
      some (.orgDeactivated (NewOrgDeactivatedEvent ctx aggregate)) ∧
    (NewOrgReactivatedEvent ctx aggregate).Payload =
      some (.orgReactivated (NewOrgReactivatedEvent ctx aggregate)) ∧
    (NewOrgDeactivatedEvent ctx aggregate).Payload ≠ none ∧
    (NewOrgReactivatedEvent ctx aggregate).Payload ≠ none ∧
    (∀ e : OrgRemovedEvent, e.Payload = none) :=
  ⟨rfl, rfl, by simp [OrgDeactivatedEvent.Payload], by simp [OrgReactivatedEvent.Payload],
    fun _ => rfl⟩

/-- C9 fails as stated: a name that is not valid UTF-8 (the single byte `0xFF`)
does not survive the round trip; the mapper succeeds and yields the name
`U+FFFD` (the bytes `EF BF BD`), which the encoder wrote in place of the
invalid byte. -/
theorem added_event_roundtrip_invalid_utf8 :
    utf8.Valid [0xFF] = false ∧
    OrgAddedEventMapper (repository.Event.mk 1 [] (EventData
        (NewOrgAddedEvent ⟨[], []⟩ ⟨[], [], [], [], []⟩ [0xFF]).Payload) [] [] [] [] [] [] []) =
      (some (.orgAdded
        { BaseEvent := BaseEventFromRepo (repository.Event.mk 1 [] (EventData
            (NewOrgAddedEvent ⟨[], []⟩ ⟨[], [], [], [], []⟩ [0xFF]).Payload) [] [] [] [] [] [] [])
          Name := [0xEF, 0xBF, 0xBD] }), none) ∧
    ([0xEF, 0xBF, 0xBD] : GoString) ≠ [0xFF] := by
  decide

/-- C9, amended: for every name that is valid UTF-8, serializing the payload of
`NewOrgAddedEvent(name)` and handing a record that holds those bytes to
`OrgAddedEventMapper` succeeds and yields an added event whose name is `name`;
the empty name is left out of the serialized form, which is then the empty
object. -/
theorem added_event_roundtrip_valid_utf8 (ctx : Context) (aggregate : Aggregate)
    (name : GoString) (hv : utf8.Valid name = true) (event : repository.Event)
    (hd : event.Data = EventData (NewOrgAddedEvent ctx aggregate name).Payload) :
    OrgAddedEventMapper event =
      (some (.orgAdded { BaseEvent := BaseEventFromRepo event, Name := name }), none) ∧
    EventData (NewOrgAddedEvent ctx aggregate []).Payload = [0x7B, 0x7D] := by
  refine ⟨?_, rfl⟩
  have hdata : event.Data = json.marshalName name := hd
  have hu : json.unmarshalName event.Data [] = (name, none) := by
    rw [hdata]
    by_cases hn : name = []
    · subst hn
      exact json.unmarshalName_empty_object []
    · exact json.unmarshalName_marshalName name [] hv hn
  simp only [OrgAddedEventMapper, unmarshalOrgAdded, hu]

/-- C9 as amended, at the name "Acme". -/
theorem added_event_roundtrip_valid_utf8_witness :
    utf8.Valid (lit "Acme") = true ∧
    OrgAddedEventMapper (repository.Event.mk 1 [] (EventData
        (NewOrgAddedEvent ⟨[], []⟩ ⟨[], [], [], [], []⟩ (lit "Acme")).Payload)
        [] [] [] [] [] [] []) =
      (some (.orgAdded
        { BaseEvent := BaseEventFromRepo (repository.Event.mk 1 [] (EventData
            (NewOrgAddedEvent ⟨[], []⟩ ⟨[], [], [], [], []⟩ (lit "Acme")).Payload)
            [] [] [] [] [] [] [])
          Name := lit "Acme" }), none) :=
  ⟨by decide,
    (added_event_roundtrip_valid_utf8 ⟨[], []⟩ ⟨[], [], [], [], []⟩ (lit "Acme") (by decide)
      (repository.Event.mk 1 [] (EventData
        (NewOrgAddedEvent ⟨[], []⟩ ⟨[], [], [], [], []⟩ (lit "Acme")).Payload)
        [] [] [] [] [] [] []) rfl).1⟩

end org

/-! ## The IAM read model -/

namespace iam

open eventstore

theorem routeEvent_base {σ : Type} (rm : ReadModel σ) (event : EventReader) :
    (routeEvent rm event).Base = rm.Base := by
  unfold routeEvent
  split <;> rfl

theorem foldl_routeEvent_base {σ : Type} (events : List EventReader) (rm : ReadModel σ) :
    (events.foldl routeEvent rm).Base = rm.Base := by
  induction events generalizing rm with
  | nil => rfl
  | cons e es ih => rw [List.foldl_cons, ih, routeEvent_base]

end iam

/-! ## `isEventTypes`, the rest of the read model, the rest of the catalog -/

namespace eventstore

/-- C17: `isEventTypes` returns true exactly when one of the candidate types
equals the type of the event; for no candidates it returns false. -/
theorem isEventTypes_iff_mem (event : BaseEvent) (types : List GoString) :
    (isEventTypes event types = true ↔ ∃ typ ∈ types, typ = event.Typ) ∧
    isEventTypes event [] = false := by
  refine ⟨?_, rfl⟩
  induction types with
  | nil => simp [isEventTypes]
  | cons typ types ih =>
    rw [isEventTypes]
    by_cases h : event.Typ = typ
    · simp [h]
    · have h2 : ¬ typ = event.Typ := fun e => h e.symm
      simp [h, h2, ih]

end eventstore

namespace iam

open eventstore

theorem reduceEvent_subs {σ : Type} (rm : ReadModel σ) (event : EventReader) :
    (reduceEvent rm event).Base = rm.Base ∧
    (reduceEvent rm event).Members = rm.Members ∧
    (reduceEvent rm event).DefaultLoginPolicy = rm.DefaultLoginPolicy ∧
    (reduceEvent rm event).DefaultLabelPolicy = rm.DefaultLabelPolicy ∧
    (reduceEvent rm event).DefaultOrgIAMPolicy = rm.DefaultOrgIAMPolicy ∧
    (reduceEvent rm event).DefaultPasswordComplexityPolicy = rm.DefaultPasswordComplexityPolicy ∧
    (reduceEvent rm event).DefaultPasswordAgePolicy = rm.DefaultPasswordAgePolicy ∧
    (reduceEvent rm event).DefaultPasswordLockoutPolicy = rm.DefaultPasswordLockoutPolicy := by
  unfold reduceEvent
  split
  · exact ⟨rfl, rfl, rfl, rfl, rfl, rfl, rfl, rfl⟩
  · exact ⟨rfl, rfl, rfl, rfl, rfl, rfl, rfl, rfl⟩
  · split <;> exact ⟨rfl, rfl, rfl, rfl, rfl, rfl, rfl, rfl⟩
  · exact ⟨rfl, rfl, rfl, rfl, rfl, rfl, rfl, rfl⟩

theorem foldl_reduceEvent_subs {σ : Type} (events : List EventReader) (rm : ReadModel σ) :
    (events.foldl reduceEvent rm).Base = rm.Base ∧
    (events.foldl reduceEvent rm).Members = rm.Members ∧
    (events.foldl reduceEvent rm).DefaultLoginPolicy = rm.DefaultLoginPolicy ∧
    (events.foldl reduceEvent rm).DefaultLabelPolicy = rm.DefaultLabelPolicy ∧
    (events.foldl reduceEvent rm).DefaultOrgIAMPolicy = rm.DefaultOrgIAMPolicy ∧
    (events.foldl reduceEvent rm).DefaultPasswordComplexityPolicy =
      rm.DefaultPasswordComplexityPolicy ∧
    (events.foldl reduceEvent rm).DefaultPasswordAgePolicy = rm.DefaultPasswordAgePolicy ∧
    (events.foldl reduceEvent rm).DefaultPasswordLockoutPolicy =
      rm.DefaultPasswordLockoutPolicy := by
  induction events generalizing rm with
  | nil => exact ⟨rfl, rfl, rfl, rfl, rfl, rfl, rfl, rfl⟩
  | cons e es ih =>
    rw [List.foldl_cons]
    obtain ⟨h1, h2, h3, h4, h5, h6, h7, h8⟩ := ih (reduceEvent rm e)
    obtain ⟨k1, k2, k3, k4, k5, k6, k7, k8⟩ := reduceEvent_subs rm e
    exact ⟨h1.trans k1, h2.trans k2, h3.trans k3, h4.trans k4, h5.trans k5, h6.trans k6,
      h7.trans k7, h8.trans k8⟩

/-- The reducers leave the four direct fields as the first loop of `Reduce` set
them. -/
theorem Reduce_direct_fields {σ : Type} (R : Reducers σ) (rm : ReadModel σ) :
    (rm.Reduce R).1.ProjectID = rm.reduceDirect.ProjectID ∧
    (rm.Reduce R).1.GlobalOrgID = rm.reduceDirect.GlobalOrgID ∧
    (rm.Reduce R).1.SetUpStarted = rm.reduceDirect.SetUpStarted ∧
    (rm.Reduce R).1.SetUpDone = rm.reduceDirect.SetUpDone := by
  unfold ReadModel.Reduce
  simp only []
  repeat' split
  all_goals exact ⟨rfl, rfl, rfl, rfl⟩


theorem Reduce_base {σ : Type} (R : Reducers σ) (rm : ReadModel σ) :
    (rm.Reduce R).1.Base = rm.Base ∨ (rm.Reduce R).1.Base = (R.ReadModel rm.Base).1 := by
  have hb : rm.reduceDirect.Base = rm.Base := (foldl_reduceEvent_subs _ rm).1
  unfold ReadModel.Reduce
  simp only []
  repeat' split
  all_goals first
    | exact Or.inl hb
    | exact Or.inr (by rw [hb])

theorem routeEvent_direct {σ : Type} (rm : ReadModel σ) (event : EventReader) :
    (routeEvent rm event).ProjectID = rm.ProjectID ∧
    (routeEvent rm event).GlobalOrgID = rm.GlobalOrgID ∧
    (routeEvent rm event).SetUpStarted = rm.SetUpStarted ∧
    (routeEvent rm event).SetUpDone = rm.SetUpDone := by
  unfold routeEvent
  split <;> exact ⟨rfl, rfl, rfl, rfl⟩

theorem AppendEvents_direct {σ : Type} (rm : ReadModel σ) (events : List EventReader) :
    (rm.AppendEvents events).ProjectID = rm.ProjectID ∧
    (rm.AppendEvents events).GlobalOrgID = rm.GlobalOrgID ∧
    (rm.AppendEvents events).SetUpStarted = rm.SetUpStarted ∧
    (rm.AppendEvents events).SetUpDone = rm.SetUpDone := by
  have key : ∀ (es : List EventReader) (x : ReadModel σ),
      (es.foldl routeEvent x).ProjectID = x.ProjectID ∧
      (es.foldl routeEvent x).GlobalOrgID = x.GlobalOrgID ∧
      (es.foldl routeEvent x).SetUpStarted = x.SetUpStarted ∧
      (es.foldl routeEvent x).SetUpDone = x.SetUpDone := by
    intro es
    induction es with
    | nil => intro x; exact ⟨rfl, rfl, rfl, rfl⟩
    | cons e es ih =>
      intro x
      rw [List.foldl_cons]
      obtain ⟨h1, h2, h3, h4⟩ := ih (routeEvent x e)
      obtain ⟨k1, k2, k3, k4⟩ := routeEvent_direct x e
      exact ⟨h1.trans k1, h2.trans k2, h3.trans k3, h4.trans k4⟩
  exact key events _

/-! ### Last writer wins -/

theorem foldl_written_or_kept {σ α : Type} (π : ReadModel σ → α) (h : WrittenOrKept π)
    (l : List EventReader) :
    (∀ X Y : ReadModel σ, π (l.foldl reduceEvent X) = π (l.foldl reduceEvent Y)) ∨
    (∀ X : ReadModel σ, π (l.foldl reduceEvent X) = π X) := by
  induction l with
  | nil => exact Or.inr fun _ => rfl
  | cons e l ih =>
    rcases ih with w | k
    · exact Or.inl fun X Y => w _ _
    · rcases h e with w | k2
      · exact Or.inl fun X Y => by
          rw [List.foldl_cons, List.foldl_cons, k, k]
          exact w X Y
      · exact Or.inr fun X => by rw [List.foldl_cons, k, k2]

theorem foldl_congr_field {σ α : Type} (π : ReadModel σ → α) (h : WrittenOrKept π)
    (l : List EventReader) (X Y : ReadModel σ) (hxy : π X = π Y) :
    π (l.foldl reduceEvent X) = π (l.foldl reduceEvent Y) := by
  rcases foldl_written_or_kept π h l with w | k
  · exact w X Y
  · rw [k, k, hxy]

/-- Folding a suffix of the held events once more changes nothing. -/
theorem foldl_suffix_again {σ α : Type} (π : ReadModel σ → α) (h : WrittenOrKept π)
    (H E : List EventReader) (hs : E <:+ H) (X S : ReadModel σ)
    (hS : π S = π (H.foldl reduceEvent X)) :
    π (E.foldl reduceEvent S) = π (H.foldl reduceEvent X) := by
  obtain ⟨pre, rfl⟩ := hs
  rw [List.foldl_append] at hS ⊢
  rcases foldl_written_or_kept π h E with w | k
  · exact w _ _
  · rw [k, hS]

theorem writtenOrKept_ProjectID {σ : Type} :
    WrittenOrKept (fun rm : ReadModel σ => rm.ProjectID) := by
  intro e
  rcases e with ⟨n, b⟩
  cases b
  case projectSetEvent p => exact Or.inl fun _ _ => rfl
  case setupStepEvent s d => cases d <;> exact Or.inr fun _ => rfl
  all_goals exact Or.inr fun _ => rfl

theorem writtenOrKept_GlobalOrgID {σ : Type} :
    WrittenOrKept (fun rm : ReadModel σ => rm.GlobalOrgID) := by
  intro e
  rcases e with ⟨n, b⟩
  cases b
  case globalOrgSetEvent p => exact Or.inl fun _ _ => rfl
  case setupStepEvent s d => cases d <;> exact Or.inr fun _ => rfl
  all_goals exact Or.inr fun _ => rfl

theorem writtenOrKept_SetUpStarted {σ : Type} :
    WrittenOrKept (fun rm : ReadModel σ => rm.SetUpStarted) := by
  intro e
  rcases e with ⟨n, b⟩
  cases b
  case setupStepEvent s d =>
    cases d
    · exact Or.inl fun _ _ => rfl
    · exact Or.inr fun _ => rfl
  all_goals exact Or.inr fun _ => rfl

theorem writtenOrKept_SetUpDone {σ : Type} :
    WrittenOrKept (fun rm : ReadModel σ => rm.SetUpDone) := by
  intro e
  rcases e with ⟨n, b⟩
  cases b
  case setupStepEvent s d =>
    cases d
    · exact Or.inr fun _ => rfl
    · exact Or.inl fun _ _ => rfl
  all_goals exact Or.inr fun _ => rfl


theorem AppendEvents_base_events {σ : Type} (rm : ReadModel σ) (events : List EventReader) :
    (rm.AppendEvents events).Base.Events = rm.Base.Events ++ events := by
  simp only [ReadModel.AppendEvents, foldl_routeEvent_base, eventstore.ReadModel.AppendEvents]

theorem Reduce_events_suffix {σ : Type} (R : Reducers σ)
    (hbase : ∀ b : eventstore.ReadModel, (R.ReadModel b).1.Events <:+ b.Events)
    (rm : ReadModel σ) : (rm.Reduce R).1.Base.Events <:+ rm.Base.Events := by
  rcases Reduce_base R rm with h | h
  · rw [h]
  · rw [h]
    exact hbase _

/-- Incremental and batch reduction agree on a field that every event writes or
keeps and that neither `AppendEvents` nor the reducers touch. -/
theorem incremental_field {σ α : Type} (π : ReadModel σ → α) (h : WrittenOrKept π)
    (happ : ∀ (x : ReadModel σ) (es : List EventReader), π (x.AppendEvents es) = π x)
    (hred : ∀ (R : Reducers σ) (x : ReadModel σ), π (x.Reduce R).1 = π x.reduceDirect)
    (R : Reducers σ)
    (hbase : ∀ b : eventstore.ReadModel, (R.ReadModel b).1.Events <:+ b.Events)
    (rm : ReadModel σ) (xs ys : List EventReader) :
    π ((((rm.AppendEvents xs).Reduce R).1.AppendEvents ys).Reduce R).1 =
      π ((rm.AppendEvents (xs ++ ys)).Reduce R).1 := by
  rw [hred, hred, ReadModel.reduceDirect, ReadModel.reduceDirect, AppendEvents_base_events,
    AppendEvents_base_events, List.foldl_append, ← List.append_assoc, List.foldl_append]
  apply foldl_congr_field π h
  have h1 : π (((rm.AppendEvents xs).Reduce R).1.AppendEvents ys) =
      π ((rm.Base.Events ++ xs).foldl reduceEvent (rm.AppendEvents xs)) := by
    rw [happ, hred, ReadModel.reduceDirect, AppendEvents_base_events]
  have hs : ((rm.AppendEvents xs).Reduce R).1.Base.Events <:+ rm.Base.Events ++ xs := by
    have := Reduce_events_suffix R hbase (rm.AppendEvents xs)
    rwa [AppendEvents_base_events] at this
  rw [foldl_suffix_again π h _ _ hs _ _ h1]
  apply foldl_congr_field π h
  rw [happ, happ]

/-- Reducing twice in a row gives the field the value reducing once gives it. -/
theorem reduce_twice_field {σ α : Type} (π : ReadModel σ → α) (h : WrittenOrKept π)
    (hred : ∀ (R : Reducers σ) (x : ReadModel σ), π (x.Reduce R).1 = π x.reduceDirect)
    (R : Reducers σ)
    (hbase : ∀ b : eventstore.ReadModel, (R.ReadModel b).1.Events <:+ b.Events)
    (rm : ReadModel σ) :
    π ((rm.Reduce R).1.Reduce R).1 = π (rm.Reduce R).1 := by
  have h1 : π (rm.Reduce R).1 = π (rm.Base.Events.foldl reduceEvent rm) := by
    rw [hred, ReadModel.reduceDirect]
  rw [hred, ReadModel.reduceDirect,
    foldl_suffix_again π h _ _ (Reduce_events_suffix R hbase rm) _ _ h1, h1]

/-- C15: after the loop over the held events, `Reduce` runs the reducers in the
order Members, DefaultLoginPolicy, DefaultLabelPolicy, DefaultOrgIAMPolicy,
DefaultPasswordComplexityPolicy, DefaultPasswordAgePolicy,
DefaultPasswordLockoutPolicy, base read model. When the reducers before one
succeed and that one fails, its error is returned, and the read model returned
carries the effect of the reducers up to that one and of no reducer after it;
nil is returned exactly when all eight succeed. -/
theorem reduce_first_error {σ : Type} (R : Reducers σ) (rm : ReadModel σ) :
    (∀ err : errors.CaosError,
      (R.Members rm.reduceDirect.Members).2 = some err →
      rm.Reduce R =
        ({ rm.reduceDirect with
            Members := (R.Members rm.reduceDirect.Members).1 }, some err)) ∧
    (∀ err : errors.CaosError,
      (R.Members rm.reduceDirect.Members).2 = none →
      (R.DefaultLoginPolicy rm.reduceDirect.DefaultLoginPolicy).2 = some err →
      rm.Reduce R =
        ({ rm.reduceDirect with
            Members := (R.Members rm.reduceDirect.Members).1,
            DefaultLoginPolicy := (R.DefaultLoginPolicy rm.reduceDirect.DefaultLoginPolicy).1 }, some err)) ∧
    (∀ err : errors.CaosError,
      (R.Members rm.reduceDirect.Members).2 = none →
      (R.DefaultLoginPolicy rm.reduceDirect.DefaultLoginPolicy).2 = none →
      (R.DefaultLabelPolicy rm.reduceDirect.DefaultLabelPolicy).2 = some err →
      rm.Reduce R =
        ({ rm.reduceDirect with
            Members := (R.Members rm.reduceDirect.Members).1,
            DefaultLoginPolicy := (R.DefaultLoginPolicy rm.reduceDirect.DefaultLoginPolicy).1,
            DefaultLabelPolicy := (R.DefaultLabelPolicy rm.reduceDirect.DefaultLabelPolicy).1 }, some err)) ∧
    (∀ err : errors.CaosError,
      (R.Members rm.reduceDirect.Members).2 = none →
      (R.DefaultLoginPolicy rm.reduceDirect.DefaultLoginPolicy).2 = none →
      (R.DefaultLabelPolicy rm.reduceDirect.DefaultLabelPolicy).2 = none →
      (R.DefaultOrgIAMPolicy rm.reduceDirect.DefaultOrgIAMPolicy).2 = some err →
      rm.Reduce R =
        ({ rm.reduceDirect with
            Members := (R.Members rm.reduceDirect.Members).1,
            DefaultLoginPolicy := (R.DefaultLoginPolicy rm.reduceDirect.DefaultLoginPolicy).1,
            DefaultLabelPolicy := (R.DefaultLabelPolicy rm.reduceDirect.DefaultLabelPolicy).1,
            DefaultOrgIAMPolicy := (R.DefaultOrgIAMPolicy rm.reduceDirect.DefaultOrgIAMPolicy).1 }, some err)) ∧
    (∀ err : errors.CaosError,
      (R.Members rm.reduceDirect.Members).2 = none →
      (R.DefaultLoginPolicy rm.reduceDirect.DefaultLoginPolicy).2 = none →
      (R.DefaultLabelPolicy rm.reduceDirect.DefaultLabelPolicy).2 = none →
      (R.DefaultOrgIAMPolicy rm.reduceDirect.DefaultOrgIAMPolicy).2 = none →
      (R.DefaultPasswordComplexityPolicy rm.reduceDirect.DefaultPasswordComplexityPolicy).2 = some err →
      rm.Reduce R =
        ({ rm.reduceDirect with
            Members := (R.Members rm.reduceDirect.Members).1,
            DefaultLoginPolicy := (R.DefaultLoginPolicy rm.reduceDirect.DefaultLoginPolicy).1,
            DefaultLabelPolicy := (R.DefaultLabelPolicy rm.reduceDirect.DefaultLabelPolicy).1,
            DefaultOrgIAMPolicy := (R.DefaultOrgIAMPolicy rm.reduceDirect.DefaultOrgIAMPolicy).1,
            DefaultPasswordComplexityPolicy := (R.DefaultPasswordComplexityPolicy rm.reduceDirect.DefaultPasswordComplexityPolicy).1 }, some err)) ∧
    (∀ err : errors.CaosError,
      (R.Members rm.reduceDirect.Members).2 = none →
      (R.DefaultLoginPolicy rm.reduceDirect.DefaultLoginPolicy).2 = none →
      (R.DefaultLabelPolicy rm.reduceDirect.DefaultLabelPolicy).2 = none →
      (R.DefaultOrgIAMPolicy rm.reduceDirect.DefaultOrgIAMPolicy).2 = none →
      (R.DefaultPasswordComplexityPolicy rm.reduceDirect.DefaultPasswordComplexityPolicy).2 = none →
      (R.DefaultPasswordAgePolicy rm.reduceDirect.DefaultPasswordAgePolicy).2 = some err →
      rm.Reduce R =
        ({ rm.reduceDirect with
            Members := (R.Members rm.reduceDirect.Members).1,
            DefaultLoginPolicy := (R.DefaultLoginPolicy rm.reduceDirect.DefaultLoginPolicy).1,
            DefaultLabelPolicy := (R.DefaultLabelPolicy rm.reduceDirect.DefaultLabelPolicy).1,
            DefaultOrgIAMPolicy := (R.DefaultOrgIAMPolicy rm.reduceDirect.DefaultOrgIAMPolicy).1,
            DefaultPasswordComplexityPolicy := (R.DefaultPasswordComplexityPolicy rm.reduceDirect.DefaultPasswordComplexityPolicy).1,
            DefaultPasswordAgePolicy := (R.DefaultPasswordAgePolicy rm.reduceDirect.DefaultPasswordAgePolicy).1 }, some err)) ∧
    (∀ err : errors.CaosError,
      (R.Members rm.reduceDirect.Members).2 = none →
      (R.DefaultLoginPolicy rm.reduceDirect.DefaultLoginPolicy).2 = none →
      (R.DefaultLabelPolicy rm.reduceDirect.DefaultLabelPolicy).2 = none →
      (R.DefaultOrgIAMPolicy rm.reduceDirect.DefaultOrgIAMPolicy).2 = none →
      (R.DefaultPasswordComplexityPolicy rm.reduceDirect.DefaultPasswordComplexityPolicy).2 = none →
      (R.DefaultPasswordAgePolicy rm.reduceDirect.DefaultPasswordAgePolicy).2 = none →
      (R.DefaultPasswordLockoutPolicy rm.reduceDirect.DefaultPasswordLockoutPolicy).2 = some err →
      rm.Reduce R =
        ({ rm.reduceDirect with
            Members := (R.Members rm.reduceDirect.Members).1,
            DefaultLoginPolicy := (R.DefaultLoginPolicy rm.reduceDirect.DefaultLoginPolicy).1,
            DefaultLabelPolicy := (R.DefaultLabelPolicy rm.reduceDirect.DefaultLabelPolicy).1,
            DefaultOrgIAMPolicy := (R.DefaultOrgIAMPolicy rm.reduceDirect.DefaultOrgIAMPolicy).1,
            DefaultPasswordComplexityPolicy := (R.DefaultPasswordComplexityPolicy rm.reduceDirect.DefaultPasswordComplexityPolicy).1,
            DefaultPasswordAgePolicy := (R.DefaultPasswordAgePolicy rm.reduceDirect.DefaultPasswordAgePolicy).1,
            DefaultPasswordLockoutPolicy := (R.DefaultPasswordLockoutPolicy rm.reduceDirect.DefaultPasswordLockoutPolicy).1 }, some err)) ∧
    (∀ err : errors.CaosError,
      (R.Members rm.reduceDirect.Members).2 = none →
      (R.DefaultLoginPolicy rm.reduceDirect.DefaultLoginPolicy).2 = none →
      (R.DefaultLabelPolicy rm.reduceDirect.DefaultLabelPolicy).2 = none →
      (R.DefaultOrgIAMPolicy rm.reduceDirect.DefaultOrgIAMPolicy).2 = none →
      (R.DefaultPasswordComplexityPolicy rm.reduceDirect.DefaultPasswordComplexityPolicy).2 = none →
      (R.DefaultPasswordAgePolicy rm.reduceDirect.DefaultPasswordAgePolicy).2 = none →
      (R.DefaultPasswordLockoutPolicy rm.reduceDirect.DefaultPasswordLockoutPolicy).2 = none →
      (R.ReadModel rm.reduceDirect.Base).2 = some err →
      rm.Reduce R =
        ({ rm.reduceDirect with
            Members := (R.Members rm.reduceDirect.Members).1,
            DefaultLoginPolicy := (R.DefaultLoginPolicy rm.reduceDirect.DefaultLoginPolicy).1,
            DefaultLabelPolicy := (R.DefaultLabelPolicy rm.reduceDirect.DefaultLabelPolicy).1,
            DefaultOrgIAMPolicy := (R.DefaultOrgIAMPolicy rm.reduceDirect.DefaultOrgIAMPolicy).1,
            DefaultPasswordComplexityPolicy := (R.DefaultPasswordComplexityPolicy rm.reduceDirect.DefaultPasswordComplexityPolicy).1,
            DefaultPasswordAgePolicy := (R.DefaultPasswordAgePolicy rm.reduceDirect.DefaultPasswordAgePolicy).1,
            DefaultPasswordLockoutPolicy := (R.DefaultPasswordLockoutPolicy rm.reduceDirect.DefaultPasswordLockoutPolicy).1,
            Base := (R.ReadModel rm.reduceDirect.Base).1 }, some err)) ∧
    ((rm.Reduce R).2 = none ↔
      (R.Members rm.reduceDirect.Members).2 = none ∧
      (R.DefaultLoginPolicy rm.reduceDirect.DefaultLoginPolicy).2 = none ∧
      (R.DefaultLabelPolicy rm.reduceDirect.DefaultLabelPolicy).2 = none ∧
      (R.DefaultOrgIAMPolicy rm.reduceDirect.DefaultOrgIAMPolicy).2 = none ∧
      (R.DefaultPasswordComplexityPolicy rm.reduceDirect.DefaultPasswordComplexityPolicy).2 = none ∧
      (R.DefaultPasswordAgePolicy rm.reduceDirect.DefaultPasswordAgePolicy).2 = none ∧
      (R.DefaultPasswordLockoutPolicy rm.reduceDirect.DefaultPasswordLockoutPolicy).2 = none ∧
      (R.ReadModel rm.reduceDirect.Base).2 = none) := by
  refine ⟨?_, ?_, ?_, ?_, ?_, ?_, ?_, ?_, ?_⟩
  · intro err h0
    simp only [ReadModel.Reduce, h0]
  · intro err h0 h1
    simp only [ReadModel.Reduce, h0, h1]
  · intro err h0 h1 h2
    simp only [ReadModel.Reduce, h0, h1, h2]
  · intro err h0 h1 h2 h3
    simp only [ReadModel.Reduce, h0, h1, h2, h3]
  · intro err h0 h1 h2 h3 h4
    simp only [ReadModel.Reduce, h0, h1, h2, h3, h4]
  · intro err h0 h1 h2 h3 h4 h5
    simp only [ReadModel.Reduce, h0, h1, h2, h3, h4, h5]
  · intro err h0 h1 h2 h3 h4 h5 h6
    simp only [ReadModel.Reduce, h0, h1, h2, h3, h4, h5, h6]
  · intro err h0 h1 h2 h3 h4 h5 h6 h7
    simp only [ReadModel.Reduce, h0, h1, h2, h3, h4, h5, h6, h7]
  · unfold ReadModel.Reduce
    simp only []
    repeat' split
    all_goals simp_all


theorem routeEvent_members {σ : Type} (rm : ReadModel σ) (event : EventReader) :
    (routeEvent rm event).Members.Events =
      rm.Members.Events ++ [event].filter (fun e => decide (e.Body = .memberAddedEvent ∨
        e.Body = .memberChangedEvent ∨ e.Body = .memberRemovedEvent)) ∧
    (routeEvent rm event).Members.State = rm.Members.State := by
  rcases event with ⟨n, b⟩
  cases b <;> simp [routeEvent, SubReadModel.AppendEvents]

theorem foldl_routeEvent_members {σ : Type} (events : List EventReader) (rm : ReadModel σ) :
    (events.foldl routeEvent rm).Members.Events =
      rm.Members.Events ++ events.filter (fun e => decide (e.Body = .memberAddedEvent ∨
        e.Body = .memberChangedEvent ∨ e.Body = .memberRemovedEvent)) ∧
    (events.foldl routeEvent rm).Members.State = rm.Members.State := by
  induction events generalizing rm with
  | nil => simp
  | cons e es ih =>
    obtain ⟨h1, h2⟩ := ih (routeEvent rm e)
    obtain ⟨k1, k2⟩ := routeEvent_members rm e
    rw [List.foldl_cons, h1, h2, k1, k2]
    refine ⟨?_, rfl⟩
    rw [List.append_assoc, ← List.filter_append]
    rfl

/-- C11: the member events among the events given to `AppendEvents` are queued,
in the order given, behind the events the Members read model holds, and
nothing else about that read model changes; `Reduce` of the parent applies
`Members.Reduce` to it, whatever the other reducers do, although the type
switch of the parent's own loop leaves the read model as it is on a member
event. -/
theorem member_events_routed_and_reduced {σ : Type} (R : Reducers σ) (rm : ReadModel σ)
    (events : List EventReader) :
    (rm.AppendEvents events).Members.Events =
      rm.Members.Events ++ events.filter (fun e => decide (e.Body = .memberAddedEvent ∨
        e.Body = .memberChangedEvent ∨ e.Body = .memberRemovedEvent)) ∧
    (rm.AppendEvents events).Members.State = rm.Members.State ∧
    ((rm.AppendEvents events).Reduce R).1.Members =
      (R.Members (rm.AppendEvents events).Members).1 ∧
    (∀ (x : ReadModel σ) (n : Nat),
      reduceEvent x ⟨n, .memberAddedEvent⟩ = x ∧
      reduceEvent x ⟨n, .memberChangedEvent⟩ = x ∧
      reduceEvent x ⟨n, .memberRemovedEvent⟩ = x) := by
  have hm := foldl_routeEvent_members events
    { rm with Base := rm.Base.AppendEvents events }
  refine ⟨hm.1, hm.2, ?_, fun _ _ => ⟨rfl, rfl, rfl⟩⟩
  have hd : (rm.AppendEvents events).reduceDirect.Members = (rm.AppendEvents events).Members :=
    (foldl_reduceEvent_subs _ _).2.1
  unfold ReadModel.Reduce
  simp only []
  repeat' split
  all_goals simp only [hd]

theorem foldl_keeps_ProjectID {σ : Type} (l : List EventReader) (x : ReadModel σ)
    (h : ∀ e ∈ l, ∀ q, e.Body ≠ .projectSetEvent q) :
    (l.foldl reduceEvent x).ProjectID = x.ProjectID := by
  induction l generalizing x with
  | nil => rfl
  | cons e l ih =>
    rw [List.foldl_cons, ih _ (fun e' he' => h e' (List.mem_cons_of_mem _ he'))]
    have he := h e (List.mem_cons_self _ _)
    rcases e with ⟨n, b⟩
    cases b
    case projectSetEvent p => exact absurd rfl (he p)
    case setupStepEvent s d => cases d <;> rfl
    all_goals rfl

theorem foldl_keeps_GlobalOrgID {σ : Type} (l : List EventReader) (x : ReadModel σ)
    (h : ∀ e ∈ l, ∀ q, e.Body ≠ .globalOrgSetEvent q) :
    (l.foldl reduceEvent x).GlobalOrgID = x.GlobalOrgID := by
  induction l generalizing x with
  | nil => rfl
  | cons e l ih =>
    rw [List.foldl_cons, ih _ (fun e' he' => h e' (List.mem_cons_of_mem _ he'))]
    have he := h e (List.mem_cons_self _ _)
    rcases e with ⟨n, b⟩
    cases b
    case globalOrgSetEvent p => exact absurd rfl (he p)
    case setupStepEvent s d => cases d <;> rfl
    all_goals rfl

theorem foldl_keeps_SetUpDone {σ : Type} (l : List EventReader) (x : ReadModel σ)
    (h : ∀ e ∈ l, ∀ s, e.Body ≠ .setupStepEvent s true) :
    (l.foldl reduceEvent x).SetUpDone = x.SetUpDone := by
  induction l generalizing x with
  | nil => rfl
  | cons e l ih =>
    rw [List.foldl_cons, ih _ (fun e' he' => h e' (List.mem_cons_of_mem _ he'))]
    have he := h e (List.mem_cons_self _ _)
    rcases e with ⟨n, b⟩
    cases b
    case setupStepEvent s d =>
      cases d
      · rfl
      · exact absurd rfl (he s)
    all_goals rfl

theorem foldl_keeps_SetUpStarted {σ : Type} (l : List EventReader) (x : ReadModel σ)
    (h : ∀ e ∈ l, ∀ s, e.Body ≠ .setupStepEvent s false) :
    (l.foldl reduceEvent x).SetUpStarted = x.SetUpStarted := by
  induction l generalizing x with
  | nil => rfl
  | cons e l ih =>
    rw [List.foldl_cons, ih _ (fun e' he' => h e' (List.mem_cons_of_mem _ he'))]
    have he := h e (List.mem_cons_self _ _)
    rcases e with ⟨n, b⟩
    cases b
    case setupStepEvent s d =>
      cases d
      · exact absurd rfl (he s)
      · rfl
    all_goals rfl

/-- C12: the loop of `Reduce` over the held events is a last-writer-wins fold.
After `Reduce` (successful or not) `ProjectID` is the `ProjectID` of the last
held `ProjectSetEvent`, `GlobalOrgID` the `OrgID` of the last held
`GlobalOrgSetEvent`, `SetUpDone` the `Step` of the last held `SetupStepEvent`
with `Done` set and `SetUpStarted` the `Step` of the last one with `Done` not
set; a field for which no such event is held has the value it had before the
call; and an event of another type changes none of the four fields. -/
theorem reduce_last_writer_wins {σ : Type} (R : Reducers σ) (rm : ReadModel σ) :
    (∀ (pre post : List EventReader) (n : Nat) (p : GoString),
      rm.Base.Events = pre ++ ⟨n, .projectSetEvent p⟩ :: post →
      (∀ e ∈ post, ∀ q, e.Body ≠ .projectSetEvent q) → (rm.Reduce R).1.ProjectID = p) ∧
    ((∀ e ∈ rm.Base.Events, ∀ q, e.Body ≠ .projectSetEvent q) →
      (rm.Reduce R).1.ProjectID = rm.ProjectID) ∧
    (∀ (pre post : List EventReader) (n : Nat) (p : GoString),
      rm.Base.Events = pre ++ ⟨n, .globalOrgSetEvent p⟩ :: post →
      (∀ e ∈ post, ∀ q, e.Body ≠ .globalOrgSetEvent q) → (rm.Reduce R).1.GlobalOrgID = p) ∧
    ((∀ e ∈ rm.Base.Events, ∀ q, e.Body ≠ .globalOrgSetEvent q) →
      (rm.Reduce R).1.GlobalOrgID = rm.GlobalOrgID) ∧
    (∀ (pre post : List EventReader) (n : Nat) (step : Int),
      rm.Base.Events = pre ++ ⟨n, .setupStepEvent step true⟩ :: post →
      (∀ e ∈ post, ∀ s, e.Body ≠ .setupStepEvent s true) → (rm.Reduce R).1.SetUpDone = step) ∧
    ((∀ e ∈ rm.Base.Events, ∀ s, e.Body ≠ .setupStepEvent s true) →
      (rm.Reduce R).1.SetUpDone = rm.SetUpDone) ∧
    (∀ (pre post : List EventReader) (n : Nat) (step : Int),
      rm.Base.Events = pre ++ ⟨n, .setupStepEvent step false⟩ :: post →
      (∀ e ∈ post, ∀ s, e.Body ≠ .setupStepEvent s false) →
      (rm.Reduce R).1.SetUpStarted = step) ∧
    ((∀ e ∈ rm.Base.Events, ∀ s, e.Body ≠ .setupStepEvent s false) →
      (rm.Reduce R).1.SetUpStarted = rm.SetUpStarted) ∧
    (∀ (x : ReadModel σ) (e : EventReader), (∀ q, e.Body ≠ .projectSetEvent q) →
      (∀ q, e.Body ≠ .globalOrgSetEvent q) → (∀ s d, e.Body ≠ .setupStepEvent s d) →
      (reduceEvent x e).ProjectID = x.ProjectID ∧ (reduceEvent x e).GlobalOrgID = x.GlobalOrgID ∧
      (reduceEvent x e).SetUpDone = x.SetUpDone ∧
      (reduceEvent x e).SetUpStarted = x.SetUpStarted) := by
  obtain ⟨h1, h2, h3, h4⟩ := Reduce_direct_fields R rm
  refine ⟨?_, ?_, ?_, ?_, ?_, ?_, ?_, ?_, ?_⟩
  · intro pre post n p he hpost
    rw [h1, ReadModel.reduceDirect, he, List.foldl_append, List.foldl_cons,
      foldl_keeps_ProjectID _ _ hpost]
    rfl
  · intro h
    rw [h1, ReadModel.reduceDirect, foldl_keeps_ProjectID _ _ h]
  · intro pre post n p he hpost
    rw [h2, ReadModel.reduceDirect, he, List.foldl_append, List.foldl_cons,
      foldl_keeps_GlobalOrgID _ _ hpost]
    rfl
  · intro h
    rw [h2, ReadModel.reduceDirect, foldl_keeps_GlobalOrgID _ _ h]
  · intro pre post n step he hpost
    rw [h4, ReadModel.reduceDirect, he, List.foldl_append, List.foldl_cons,
      foldl_keeps_SetUpDone _ _ hpost]
    rfl
  · intro h
    rw [h4, ReadModel.reduceDirect, foldl_keeps_SetUpDone _ _ h]
  · intro pre post n step he hpost
    rw [h3, ReadModel.reduceDirect, he, List.foldl_append, List.foldl_cons,
      foldl_keeps_SetUpStarted _ _ hpost]
    rfl
  · intro h
    rw [h3, ReadModel.reduceDirect, foldl_keeps_SetUpStarted _ _ h]
  · intro x e k1 k2 k3
    rcases e with ⟨n, b⟩
    cases b
    case projectSetEvent p => exact absurd rfl (k1 p)
    case globalOrgSetEvent p => exact absurd rfl (k2 p)
    case setupStepEvent s d => exact absurd rfl (k3 s d)
    all_goals exact ⟨rfl, rfl, rfl, rfl⟩

/-- C13 fails as stated: on a fresh read model that holds one `ProjectSetEvent`,
with a Members reducer that fails, `Reduce` returns the error and `ProjectID`
is the project of the event, not the empty string it was before the call. -/
theorem reduce_error_direct_fields_changed :
    (((NewReadModel () (lit "iam")).AppendEvents
      [⟨1, .projectSetEvent (lit "p1")⟩]).Reduce (Reducers.membersFail Unit)).2 ≠ none ∧
    ((NewReadModel () (lit "iam")).AppendEvents [⟨1, .projectSetEvent (lit "p1")⟩]).ProjectID
      = [] ∧
    (((NewReadModel () (lit "iam")).AppendEvents
      [⟨1, .projectSetEvent (lit "p1")⟩]).Reduce (Reducers.membersFail Unit)).1.ProjectID
      = lit "p1" := by
  decide

/-- C13, amended: if `Reduce` returns an error, the four direct fields have the
values the loop over the held events gave them, which the reducers do not
touch and nothing restores; they are the values from before the call when no
held event is of one of the three types the loop handles. -/
theorem reduce_error_direct_fields {σ : Type} (R : Reducers σ) (rm : ReadModel σ)
    (err : errors.CaosError) (_h : (rm.Reduce R).2 = some err) :
    ((rm.Reduce R).1.ProjectID = rm.reduceDirect.ProjectID ∧
      (rm.Reduce R).1.GlobalOrgID = rm.reduceDirect.GlobalOrgID ∧
      (rm.Reduce R).1.SetUpStarted = rm.reduceDirect.SetUpStarted ∧
      (rm.Reduce R).1.SetUpDone = rm.reduceDirect.SetUpDone) ∧
    ((∀ e ∈ rm.Base.Events, (∀ q, e.Body ≠ .projectSetEvent q) ∧
        (∀ q, e.Body ≠ .globalOrgSetEvent q) ∧ (∀ s d, e.Body ≠ .setupStepEvent s d)) →
      (rm.Reduce R).1.ProjectID = rm.ProjectID ∧
      (rm.Reduce R).1.GlobalOrgID = rm.GlobalOrgID ∧
      (rm.Reduce R).1.SetUpStarted = rm.SetUpStarted ∧
      (rm.Reduce R).1.SetUpDone = rm.SetUpDone) := by
  obtain ⟨h1, h2, h3, h4⟩ := Reduce_direct_fields R rm
  refine ⟨⟨h1, h2, h3, h4⟩, fun h => ?_⟩
  rw [h1, h2, h3, h4, ReadModel.reduceDirect,
    foldl_keeps_ProjectID _ _ (fun e he => (h e he).1),
    foldl_keeps_GlobalOrgID _ _ (fun e he => (h e he).2.1),
    foldl_keeps_SetUpStarted _ _ (fun e he s => (h e he).2.2 s false),
    foldl_keeps_SetUpDone _ _ (fun e he s => (h e he).2.2 s true)]
  exact ⟨rfl, rfl, rfl, rfl⟩


/-- C13 as amended, at the fresh read model that holds one `ProjectSetEvent` and
whose Members reducer fails. -/
theorem reduce_error_direct_fields_witness :
    (((NewReadModel () (lit "iam")).AppendEvents
      [⟨1, .projectSetEvent (lit "p1")⟩]).Reduce (Reducers.membersFail Unit)).2 =
      some (errors.ThrowInternal none (lit "MEMBER-Fail1") (lit "malformed member event")) ∧
    (((NewReadModel () (lit "iam")).AppendEvents
      [⟨1, .projectSetEvent (lit "p1")⟩]).Reduce (Reducers.membersFail Unit)).1.ProjectID =
      ((NewReadModel () (lit "iam")).AppendEvents
        [⟨1, .projectSetEvent (lit "p1")⟩]).reduceDirect.ProjectID :=
  ⟨by decide,
    (reduce_error_direct_fields (Reducers.membersFail Unit)
      ((NewReadModel () (lit "iam")).AppendEvents [⟨1, .projectSetEvent (lit "p1")⟩])
      (errors.ThrowInternal none (lit "MEMBER-Fail1") (lit "malformed member event"))
      (by decide)).1.1⟩

/-- C10: `AppendEvents` makes the held sequence the previously held sequence
followed by the given events in the given order, so that every event is held
once more for each time it is given, routed to a nested read model or not; and
`Reduce` iterates exactly that sequence, in that order: whatever the reducers
of the nested read models do, the four direct fields it leaves are those of
the fold of the previously held events followed by the appended ones, first
to last, so that of two project events appended together the second one
decides the project. -/
theorem append_events_order {σ : Type} (R : Reducers σ) (rm : ReadModel σ)
    (events : List EventReader) :
    (rm.AppendEvents events).Base.Events = rm.Base.Events ++ events ∧
    (∀ e : EventReader, (rm.AppendEvents events).Base.Events.count e =
      rm.Base.Events.count e + events.count e) ∧
    (rm.AppendEvents events).reduceDirect =
      (rm.Base.Events ++ events).foldl reduceEvent (rm.AppendEvents events) ∧
    (((rm.AppendEvents events).Reduce R).1.ProjectID =
        ((rm.Base.Events ++ events).foldl reduceEvent rm).ProjectID ∧
      ((rm.AppendEvents events).Reduce R).1.GlobalOrgID =
        ((rm.Base.Events ++ events).foldl reduceEvent rm).GlobalOrgID ∧
      ((rm.AppendEvents events).Reduce R).1.SetUpStarted =
        ((rm.Base.Events ++ events).foldl reduceEvent rm).SetUpStarted ∧
      ((rm.AppendEvents events).Reduce R).1.SetUpDone =
        ((rm.Base.Events ++ events).foldl reduceEvent rm).SetUpDone) ∧
    (∀ (n m : Nat) (p q : GoString),
      ((rm.AppendEvents [⟨n, .projectSetEvent p⟩, ⟨m, .projectSetEvent q⟩]).Reduce R).1.ProjectID
        = q ∧
      ((rm.AppendEvents [⟨n, .projectSetEvent q⟩, ⟨m, .projectSetEvent p⟩]).Reduce R).1.ProjectID
        = p) := by
  have h : (rm.AppendEvents events).Base.Events = rm.Base.Events ++ events :=
    AppendEvents_base_events rm events
  have key : ∀ es : List EventReader,
      ((rm.AppendEvents es).Reduce R).1.ProjectID =
        ((rm.Base.Events ++ es).foldl reduceEvent rm).ProjectID ∧
      ((rm.AppendEvents es).Reduce R).1.GlobalOrgID =
        ((rm.Base.Events ++ es).foldl reduceEvent rm).GlobalOrgID ∧
      ((rm.AppendEvents es).Reduce R).1.SetUpStarted =
        ((rm.Base.Events ++ es).foldl reduceEvent rm).SetUpStarted ∧
      ((rm.AppendEvents es).Reduce R).1.SetUpDone =
        ((rm.Base.Events ++ es).foldl reduceEvent rm).SetUpDone := by
    intro es
    obtain ⟨h1, h2, h3, h4⟩ := Reduce_direct_fields R (rm.AppendEvents es)
    obtain ⟨a1, a2, a3, a4⟩ := AppendEvents_direct rm es
    rw [h1, h2, h3, h4, ReadModel.reduceDirect, AppendEvents_base_events]
    exact ⟨foldl_congr_field (fun x => x.ProjectID) writtenOrKept_ProjectID _ _ _ a1,
      foldl_congr_field (fun x => x.GlobalOrgID) writtenOrKept_GlobalOrgID _ _ _ a2,
      foldl_congr_field (fun x => x.SetUpStarted) writtenOrKept_SetUpStarted _ _ _ a3,
      foldl_congr_field (fun x => x.SetUpDone) writtenOrKept_SetUpDone _ _ _ a4⟩
  refine ⟨h, ?_, ?_, key events, ?_⟩
  · intro e
    rw [h, List.count_append]
  · rw [ReadModel.reduceDirect, h]
  · intro n m p q
    constructor
    · rw [(key _).1, List.foldl_append]
      rfl
    · rw [(key _).1, List.foldl_append]
      rfl

/-- C16: when the base reducer leaves the held events or a tail of them held, a
fresh read model that appends `xs`, reduces, appends `ys` and reduces again
ends with the same four direct fields as one that appends `xs ++ ys` and
reduces once; and for every read model, reducing twice in a row gives the
same four direct fields as reducing once. -/
theorem incremental_reduce_eq_batch {σ : Type} (zero : σ) (id : GoString) (R : Reducers σ)
    (hbase : ∀ b : eventstore.ReadModel, (R.ReadModel b).1.Events <:+ b.Events)
    (xs ys : List EventReader) :
    ((((((NewReadModel zero id).AppendEvents xs).Reduce R).1.AppendEvents ys).Reduce R).1.ProjectID
        = (((NewReadModel zero id).AppendEvents (xs ++ ys)).Reduce R).1.ProjectID ∧
      (((((NewReadModel zero id).AppendEvents xs).Reduce R).1.AppendEvents ys).Reduce R).1.GlobalOrgID
        = (((NewReadModel zero id).AppendEvents (xs ++ ys)).Reduce R).1.GlobalOrgID ∧
      (((((NewReadModel zero id).AppendEvents xs).Reduce R).1.AppendEvents ys).Reduce R).1.SetUpStarted
        = (((NewReadModel zero id).AppendEvents (xs ++ ys)).Reduce R).1.SetUpStarted ∧
      (((((NewReadModel zero id).AppendEvents xs).Reduce R).1.AppendEvents ys).Reduce R).1.SetUpDone
        = (((NewReadModel zero id).AppendEvents (xs ++ ys)).Reduce R).1.SetUpDone) ∧
    (∀ rm : ReadModel σ,
      ((rm.Reduce R).1.Reduce R).1.ProjectID = (rm.Reduce R).1.ProjectID ∧
      ((rm.Reduce R).1.Reduce R).1.GlobalOrgID = (rm.Reduce R).1.GlobalOrgID ∧
      ((rm.Reduce R).1.Reduce R).1.SetUpStarted = (rm.Reduce R).1.SetUpStarted ∧
      ((rm.Reduce R).1.Reduce R).1.SetUpDone = (rm.Reduce R).1.SetUpDone) := by
  refine ⟨⟨?_, ?_, ?_, ?_⟩, fun rm => ⟨?_, ?_, ?_, ?_⟩⟩
  · exact incremental_field (fun x => x.ProjectID) writtenOrKept_ProjectID
      (fun x es => (AppendEvents_direct x es).1) (fun R x => (Reduce_direct_fields R x).1)
      R hbase _ xs ys
  · exact incremental_field (fun x => x.GlobalOrgID) writtenOrKept_GlobalOrgID
      (fun x es => (AppendEvents_direct x es).2.1) (fun R x => (Reduce_direct_fields R x).2.1)
      R hbase _ xs ys
  · exact incremental_field (fun x => x.SetUpStarted) writtenOrKept_SetUpStarted
      (fun x es => (AppendEvents_direct x es).2.2.1)
      (fun R x => (Reduce_direct_fields R x).2.2.1) R hbase _ xs ys
  · exact incremental_field (fun x => x.SetUpDone) writtenOrKept_SetUpDone
      (fun x es => (AppendEvents_direct x es).2.2.2)
      (fun R x => (Reduce_direct_fields R x).2.2.2) R hbase _ xs ys
  · exact reduce_twice_field (fun x => x.ProjectID) writtenOrKept_ProjectID
      (fun R x => (Reduce_direct_fields R x).1) R hbase rm
  · exact reduce_twice_field (fun x => x.GlobalOrgID) writtenOrKept_GlobalOrgID
      (fun R x => (Reduce_direct_fields R x).2.1) R hbase rm
  · exact reduce_twice_field (fun x => x.SetUpStarted) writtenOrKept_SetUpStarted
      (fun R x => (Reduce_direct_fields R x).2.2.1) R hbase rm
  · exact reduce_twice_field (fun x => x.SetUpDone) writtenOrKept_SetUpDone
      (fun R x => (Reduce_direct_fields R x).2.2.2) R hbase rm

theorem base_Reduce_events (b : eventstore.ReadModel) : b.Reduce.1.Events = b.Events := by
  unfold eventstore.ReadModel.Reduce
  split <;> rfl

/-- C16, with reducers that all succeed and the base reducer of the spec, at two
events appended and reduced one after the other. -/
theorem incremental_reduce_eq_batch_witness :
    (∀ b : eventstore.ReadModel, ((Reducers.idle Unit).ReadModel b).1.Events <:+ b.Events) ∧
    (((((NewReadModel () (lit "iam")).AppendEvents [⟨1, .projectSetEvent (lit "p1")⟩]).Reduce
        (Reducers.idle Unit)).1.AppendEvents [⟨2, .setupStepEvent 3 true⟩]).Reduce
        (Reducers.idle Unit)).1.ProjectID =
      (((NewReadModel () (lit "iam")).AppendEvents
        ([⟨1, .projectSetEvent (lit "p1")⟩] ++ [⟨2, .setupStepEvent 3 true⟩])).Reduce
        (Reducers.idle Unit)).1.ProjectID :=
  ⟨fun b => by
      show b.Reduce.1.Events <:+ b.Events
      rw [base_Reduce_events],
    (incremental_reduce_eq_batch () (lit "iam") (Reducers.idle Unit)
      (fun b => by
        show b.Reduce.1.Events <:+ b.Events
        rw [base_Reduce_events])
      [⟨1, .projectSetEvent (lit "p1")⟩] [⟨2, .setupStepEvent 3 true⟩]).1.1⟩

end iam

namespace org

open eventstore

/-- C18 does not hold of the code: on a record whose bytes fail to unmarshal the
two mappers return the same error, with the same diagnostic code `ORG-Bren2`
and the same message, so that the code does not tell the mappers apart. -/
theorem mapper_error_codes_equal :
    (∀ event : repository.Event, (OrgAddedEventMapper event).2 = (OrgChangedEventMapper event).2) ∧
    (OrgAddedEventMapper (repository.Event.mk 1 [] [0x7B] [] [] [] [] [] [] [])).2 =
      some (errors.ThrowInternal (some json.Error.SyntaxError) (lit "ORG-Bren2")
        (lit "unable to unmarshal org added")) ∧
    (OrgChangedEventMapper (repository.Event.mk 1 [] [0x7B] [] [] [] [] [] [] [])).2 =
      some (errors.ThrowInternal (some json.Error.SyntaxError) (lit "ORG-Bren2")
        (lit "unable to unmarshal org added")) := by
  refine ⟨fun event => ?_, by decide, by decide⟩
  simp only [OrgAddedEventMapper, OrgChangedEventMapper, unmarshalOrgAdded, unmarshalOrgChanged]
  cases (json.unmarshalName event.Data []).2 <;> rfl

/-- C19: the constraint declarations of a removed event are, in this order, the
REMOVE of the org name, the REMOVEs of the usernames in the order of the
slice, each with the ID of the aggregate of the event and its
`loginMustBeDomain` flag, the REMOVEs of the domains in order, the REMOVEs of
the external IDP links in order, each keyed by `IDPConfigID` and
`ExternalUserID`, and the REMOVEs of the SAML entity IDs in order; with the
four slices empty it is the REMOVE of the org name alone. -/
theorem removed_event_constraints_order (k : ConstraintKeys) (e : OrgRemovedEvent) :
    e.UniqueConstraints k =
      [ { UniqueType := lit "org_name"
          UniqueField := e.name
          Action := .UniqueConstraintRemove
          ErrorMessage := [] } ]
        ++ e.usernames.map (fun name =>
          { UniqueType := k.uniqueUsername
            UniqueField := k.usernameKey name e.BaseEvent.Agg.ID e.loginMustBeDomain
            Action := .UniqueConstraintRemove
            ErrorMessage := [] })
        ++ e.domains.map (fun dom =>
          { UniqueType := k.uniqueOrgDomain
            UniqueField := dom
            Action := .UniqueConstraintRemove
            ErrorMessage := [] })
        ++ e.externalIDPs.map (fun idp =>
          { UniqueType := k.uniqueUserIDPLink
            UniqueField := k.userIDPLinkKey idp.IDPConfigID idp.ExternalUserID
            Action := .UniqueConstraintRemove
            ErrorMessage := [] })
        ++ e.samlEntityIDs.map (fun entityID =>
          { UniqueType := k.uniqueSAMLEntityID
            UniqueField := entityID
            Action := .UniqueConstraintRemove
            ErrorMessage := [] }) ∧
    (∀ (ctx : Context) (aggregate : Aggregate) (name : GoString) (loginMustBeDomain : Bool),
      (NewOrgRemovedEvent ctx aggregate name [] loginMustBeDomain [] [] []).UniqueConstraints k =
        [ { UniqueType := lit "org_name"
            UniqueField := name
            Action := .UniqueConstraintRemove
            ErrorMessage := [] } ]) := by
  refine ⟨?_, fun _ _ _ _ => rfl⟩
  rw [removed_constraints_eq]
  rfl

/-- C20: an event rebuilt from storage carries none of the fields that exist
only at construction. For every stored record: the changed event a successful
`OrgChangedEventMapper` returns has the empty old name, so its declarations
are the REMOVE of the empty org name and the ADD of its `Name`; and
`OrgRemovedEventMapper` returns a removed event that declares the REMOVE of
the empty org name and nothing else. This holds whatever the event was
constructed with: a record that stores the payload of a changed event
constructed with any old name and a new name of valid UTF-8 is mapped to the
REMOVE of the empty name and the ADD of the new name, and a removed event
constructed with any name, usernames, domains, IDP links and SAML entity IDs
stores no payload at all. -/
theorem mapped_events_lose_construction_fields (k : ConstraintKeys)
    (event : repository.Event) :
    (∀ e : OrgChangedEvent, OrgChangedEventMapper event = (some (.orgChanged e), none) →
      e.oldName = [] ∧
      e.UniqueConstraints =
        [ { UniqueType := lit "org_name"
            UniqueField := []
            Action := .UniqueConstraintRemove
            ErrorMessage := [] },
          { UniqueType := lit "org_name"
            UniqueField := e.Name
            Action := .UniqueConstraintAdd
            ErrorMessage := lit "Errors.Org.AlreadyExists" } ]) ∧
    (∃ r : OrgRemovedEvent, OrgRemovedEventMapper event = (some (.orgRemoved r), none) ∧
      r.UniqueConstraints k =
        [ { UniqueType := lit "org_name"
            UniqueField := []
            Action := .UniqueConstraintRemove
            ErrorMessage := [] } ]) ∧
    (∀ (ctx : Context) (aggregate : Aggregate) (oldName newName : GoString),
      utf8.Valid newName = true →
      event.Data = EventData (NewOrgChangedEvent ctx aggregate oldName newName).Payload →
      ∃ e : OrgChangedEvent, OrgChangedEventMapper event = (some (.orgChanged e), none) ∧
        e.UniqueConstraints =
          [ { UniqueType := lit "org_name"
              UniqueField := []
              Action := .UniqueConstraintRemove
              ErrorMessage := [] },
            { UniqueType := lit "org_name"
              UniqueField := newName
              Action := .UniqueConstraintAdd
              ErrorMessage := lit "Errors.Org.AlreadyExists" } ]) ∧
    (∀ (ctx : Context) (aggregate : Aggregate) (name : GoString) (usernames : List GoString)
      (loginMustBeDomain : Bool) (domains : List GoString)
      (externalIDPs : List domain.UserIDPLink) (samlEntityIDs : List GoString),
      EventData (NewOrgRemovedEvent ctx aggregate name usernames loginMustBeDomain domains
        externalIDPs samlEntityIDs).Payload = []) := by
  refine ⟨fun e h => ?_, ⟨_, rfl, rfl⟩, fun ctx aggregate oldName newName hv hd => ?_,
    fun _ _ _ _ _ _ _ _ => rfl⟩
  · have ho : e.oldName = [] := by
      simp only [OrgChangedEventMapper, unmarshalOrgChanged] at h
      split at h
      · simp at h
      · simp only [Prod.mk.injEq, Option.some.injEq, Event.orgChanged.injEq, and_true] at h
        rw [← h]
    refine ⟨ho, ?_⟩
    simp only [OrgChangedEvent.UniqueConstraints, ho]
    rfl
  · have hdata : event.Data = json.marshalName newName := hd
    have hu : json.unmarshalName event.Data [] = (newName, none) := by
      rw [hdata]
      by_cases hn : newName = []
      · subst hn
        exact json.unmarshalName_empty_object []
      · exact json.unmarshalName_marshalName newName [] hv hn
    have hs := (mapper_success event (by rw [hu])).2
    rw [hu] at hs
    exact ⟨_, hs, rfl⟩

/-- C20, at the record that stores the payload of the rename from "Acme" to
"Acme2", and at the record that stores the payload of the removal of "Acme"
with a user, a domain and the login-must-be-domain policy. -/
theorem mapped_events_lose_construction_fields_witness :
    OrgChangedEventMapper (repository.Event.mk 1 [] (EventData
        (NewOrgChangedEvent ⟨[], []⟩ ⟨[], [], [], [], []⟩ (lit "Acme") (lit "Acme2")).Payload)
        [] [] [] [] [] [] []) =
      (some (.orgChanged
        { BaseEvent := BaseEventFromRepo (repository.Event.mk 1 [] (EventData
            (NewOrgChangedEvent ⟨[], []⟩ ⟨[], [], [], [], []⟩ (lit "Acme")
              (lit "Acme2")).Payload) [] [] [] [] [] [] [])
          Name := lit "Acme2"
          oldName := [] }), none) ∧
    (OrgChangedEvent.mk (BaseEventFromRepo (repository.Event.mk 1 [] (EventData
        (NewOrgChangedEvent ⟨[], []⟩ ⟨[], [], [], [], []⟩ (lit "Acme") (lit "Acme2")).Payload)
        [] [] [] [] [] [] [])) (lit "Acme2") []).UniqueConstraints =
      [ { UniqueType := lit "org_name"
          UniqueField := []
          Action := .UniqueConstraintRemove
          ErrorMessage := [] },
        { UniqueType := lit "org_name"
          UniqueField := lit "Acme2"
          Action := .UniqueConstraintAdd
          ErrorMessage := lit "Errors.Org.AlreadyExists" } ] ∧
    (∃ r : OrgRemovedEvent,
      OrgRemovedEventMapper (repository.Event.mk 1 [] (EventData
        (NewOrgRemovedEvent ⟨[], []⟩ ⟨[], [], [], [], []⟩ (lit "Acme") [lit "alice"] true
          [lit "acme.com"] [] []).Payload) [] [] [] [] [] [] []) = (some (.orgRemoved r), none) ∧
      r.UniqueConstraints ⟨[], [], fun _ _ _ => [], [], fun _ _ => [], []⟩ =
        [ { UniqueType := lit "org_name"
            UniqueField := []
            Action := .UniqueConstraintRemove
            ErrorMessage := [] } ]) :=
  ⟨by decide,
    ((mapped_events_lose_construction_fields ⟨[], [], fun _ _ _ => [], [], fun _ _ => [], []⟩
      (repository.Event.mk 1 [] (EventData
        (NewOrgChangedEvent ⟨[], []⟩ ⟨[], [], [], [], []⟩ (lit "Acme") (lit "Acme2")).Payload)
        [] [] [] [] [] [] [])).1 _ (by decide)).2,
    (mapped_events_lose_construction_fields ⟨[], [], fun _ _ _ => [], [], fun _ _ => [], []⟩
      (repository.Event.mk 1 [] (EventData
        (NewOrgRemovedEvent ⟨[], []⟩ ⟨[], [], [], [], []⟩ (lit "Acme") [lit "alice"] true
          [lit "acme.com"] [] []).Payload) [] [] [] [] [] [] [])).2.1⟩

end org

end Zitadel
